import Mathlib

/-!
Shallow embedding of the Path actor of `src/path/path.go` (package `path` of
the mediamtx / rtsp-simple-server repository).

The actor owns all mutable path state; its `run` loop serializes the six
inbound request channels, the timers and the source signals.  We embed one
loop iteration per event as a pure transition function `Path.step` on a
state record `Path.PathState`, and the set of states the live actor can be
in as the inductive predicate `Path.Reachable`.

Modelling decisions, all taken from the source:
* Clients (`*client.Client` pointers) are identified by `Nat`.
* `gortsplib.Tracks` is a list of opaque tracks; `Tracks.Write()` is the
  opaque byte production `tracksWrite` (the gortsplib library is outside
  the repository; only `len(tracks)` and the produced bytes being stored
  matter to path.go).
* The Go map `clients map[*client.Client]clientState` is an association
  list with unique keys; Go map assignment is `setClient`
  (replace-if-present, insert otherwise), `delete` is `eraseClient`.
  Handler loops over the map iterate the key list of the map at loop entry
  and re-read the current state of each key, matching Go semantics (keys
  are neither inserted nor deleted inside those loops, only values change).
* Timers: arming `describeTimer` with `time.NewTimer` is recorded in
  `describeTimerArmed`; replacing it by `newEmptyTimer` clears the flag.
  The other timers carry their explicit `...Started` flags from the source.
* `panic` (double `addClient`, the `panic("not possible")` branch of
  `onSourceSetNotReady`, a nil/failed type assertion, and - as divergence -
  fuel exhaustion of the recursive removal) is the sticky flag `panicked`;
  a panicked state means the Go process has crashed, and `step` leaves
  panicked states unchanged.
* `removeClient` and `onSourceSetNotReady` are mutually recursive through
  the eviction loops; they are executed by the fuel-indexed interpreter
  `rcExec`, invoked with the generous fuel `rcFuel` (recursion depth under
  the path invariants is linear in the number of clients).
* Callbacks (`client.OnPathDescribeData`, `parent.OnPathClientClose`) and
  request replies are collected as a list of `Out` events.
* The external sources (`sourcertsp`/`sourcertmp`, outside this package)
  signal via `OnSourceSetReady(tracks)` / `OnSourceSetNotReady`; per their
  interface the two signals alternate, starting with ready, and are only
  produced by a live external source.  The ghost field `extReady` gates the
  two source-signal events accordingly.  `OnSourceSetReady` stores the sdp
  and track count before the signal is handled, as in the source.
-/

namespace Path

/-- Session-description bytes, opaque to path.go. -/
abbrev Sdp := List Nat

/-- One track of `gortsplib.Tracks`, opaque to path.go. -/
abbrev Track := Nat

/-- `gortsplib.Tracks`: a list of tracks; path.go uses only its length and
`Write()`. -/
abbrev Tracks := List Track

/-- Opaque stand-in for `gortsplib.Tracks.Write()` (library code outside the
repository): it produces the session-description bytes for a track list. -/
def tracksWrite (tracks : Tracks) : Sdp := tracks

/-- `clientState` of path.go (iota order preserved; the zero value is
`waitingDescribe`). -/
inductive ClientState
  | waitingDescribe
  | prePlay
  | play
  | preRecord
  | record
  | preRemove
deriving DecidableEq, Repr

/-- `sourceState` of path.go. -/
inductive SourceState
  | notReady
  | waitingDescribe
  | ready
deriving DecidableEq, Repr

/-- The value held by the `source` interface field: a publishing client, an
external puller (`sourcertsp.Source`/`sourcertmp.Source`, both satisfy
`sourceExternal`), or the `sourceRedirect` sentinel.  `none` at the
`Option SourceVal` level is the Go nil interface. -/
inductive SourceVal
  | client (c : Nat)
  | external
  | redirect
deriving DecidableEq, Repr

/-- The shape of `conf.Source`: `"record"` (or any other plain string),
an `rtsp://` URL, an `rtmp://` URL, or `"redirect"`. -/
inductive SourceKind
  | record
  | rtsp
  | rtmp
  | redirect
deriving DecidableEq, Repr

/-- The fields of `conf.PathConf` that path.go reads (booleans stand for
the emptiness tests the source performs: `runOnDemand` is
`conf.RunOnDemand != ""`, `regexp` is `conf.Regexp != nil`). -/
structure PathConf where
  source : SourceKind
  sourceOnDemand : Bool
  runOnDemand : Bool
  regexp : Bool
  sourceRedirect : String
deriving DecidableEq, Repr

/-- `Path.hasExternalSource`: `conf.Source` starts with `rtsp://` or
`rtmp://`. -/
def hasExternalSource (conf : PathConf) : Bool :=
  conf.source == SourceKind.rtsp || conf.source == SourceKind.rtmp

/-- The error values path.go builds with `fmt.Errorf`; payloads carry the
format arguments (the path name for `%s`, the track id for `%d`). -/
inductive PathErr
  | alreadySubscribed
  | alreadyPublishing (name : String)
  | noOnePublishing (name : String)
  | trackDoesNotExist (trackId : Int)
  | publisherTimedOut (name : String)
deriving DecidableEq, Repr

/-- Observable outputs of one actor iteration: request replies on the
response channels, `client.OnPathDescribeData` callbacks, and
`parent.OnPathClientClose` notifications. -/
inductive Out
  | describeRes (c : Nat) (err : Option PathErr)
  | describeData (c : Nat) (sdp : Option Sdp) (redirect : String) (err : Option PathErr)
  | setupPlayRes (c : Nat) (err : Option PathErr)
  | announceRes (c : Nat) (err : Option PathErr)
  | clientClose (c : Nat)
deriving DecidableEq, Repr

/-- The mutable state of the `Path` struct that the claims concern
(wait groups, log handles and the external command process handles other
than the boolean presence of `onDemandCmd` are omitted; `extReady` is the
ghost state of the external-source signalling protocol; `panicked` records
a Go panic). -/
structure PathState where
  conf : PathConf
  name : String
  clients : List (Nat × ClientState)
  source : Option SourceVal
  sourceTrackCount : Nat
  sourceSdp : Option Sdp
  readers : List Nat
  countReaders : Int
  countPublishers : Int
  describeTimerArmed : Bool
  sourceCloseTimerStarted : Bool
  runOnDemandCloseTimerStarted : Bool
  closeTimerStarted : Bool
  onDemandCmd : Bool
  sourceState : SourceState
  extReady : Bool
  panicked : Bool
deriving DecidableEq, Repr

/-- Go map read `pa.clients[c]` (as an Option; the zero-value default of a
missing key is taken at the use sites that need it). -/
def lookupClient : List (Nat × ClientState) → Nat → Option ClientState
  | [], _ => none
  | p :: l, c => if p.1 = c then some p.2 else lookupClient l c

/-- Go map assignment `pa.clients[c] = st`: replace the entry if the key is
present (keys are unique), append otherwise. -/
def setClient : List (Nat × ClientState) → Nat → ClientState → List (Nat × ClientState)
  | [], c, st => [(c, st)]
  | p :: l, c, st => if p.1 = c then (c, st) :: l else p :: setClient l c st

/-- Go map deletion `delete(pa.clients, c)`. -/
def eraseClient (clients : List (Nat × ClientState)) (c : Nat) :
    List (Nat × ClientState) :=
  clients.filter (fun p => !(p.1 == c))

/-- `Path.hasClients`: some attached client is not in `PreRemove`. -/
def hasClients (s : PathState) : Bool :=
  s.clients.any (fun p => !(p.2 == ClientState.preRemove))

/-- `Path.hasClientsNotSources`: some attached client is not in `PreRemove`
and is not the current source. -/
def hasClientsNotSources (s : PathState) : Bool :=
  s.clients.any
    (fun p => !(p.2 == ClientState.preRemove) && !(s.source == some (SourceVal.client p.1)))

/-- `Path.scheduleSourceClose`. -/
def scheduleSourceClose (s : PathState) : PathState :=
  if !(hasExternalSource s.conf) || !s.conf.sourceOnDemand || s.source == none then s
  else if s.sourceCloseTimerStarted || s.sourceState == SourceState.waitingDescribe ||
      hasClients s then s
  else { s with sourceCloseTimerStarted := true }

/-- `Path.scheduleRunOnDemandClose`. -/
def scheduleRunOnDemandClose (s : PathState) : PathState :=
  if !s.conf.runOnDemand || !s.onDemandCmd then s
  else if s.runOnDemandCloseTimerStarted || s.sourceState == SourceState.waitingDescribe ||
      hasClientsNotSources s then s
  else { s with runOnDemandCloseTimerStarted := true }

/-- `Path.scheduleClose`. -/
def scheduleClose (s : PathState) : PathState :=
  if s.closeTimerStarted || !s.conf.regexp || hasClients s || !(s.source == none) then s
  else { s with closeTimerStarted := true }

/-- The three `schedule*` calls in source order. -/
def schedules (s : PathState) : PathState :=
  scheduleClose (scheduleRunOnDemandClose (scheduleSourceClose s))

/-- `Path.addClient`: panics on a double add, else inserts the entry. -/
def addClient (s : PathState) (c : Nat) (st : ClientState) : PathState :=
  if (lookupClient s.clients c).isSome then { s with panicked := true }
  else { s with clients := s.clients ++ [(c, st)] }

/-- Commands of the fuel-indexed interpreter for the mutually recursive
`removeClient` / `onSourceSetNotReady` pair and their eviction loops. -/
inductive RCmd
  | remove (c : Nat)
  | removeLoop (keys : List Nat)
  | snr
  | snrLoop (keys : List Nat)

/-- Fuel-indexed execution of `Path.removeClient` (`RCmd.remove`), its
reader-eviction loop over the map keys (`RCmd.removeLoop`),
`Path.onSourceSetNotReady` (`RCmd.snr`) and its eviction loop
(`RCmd.snrLoop`).  Fuel exhaustion marks the state panicked (divergence);
under the path invariants the recursion depth is linear in the number of
clients and the fuel `rcFuel` used at every call site is ample. -/
def rcExec : Nat → RCmd → PathState → PathState × List Out
  | 0, _, s => ({ s with panicked := true }, [])
  | Nat.succ f, cmd, s =>
    if s.panicked then (s, []) else
    match cmd with
    | RCmd.remove c =>
      -- state := pa.clients[c] (zero value waitingDescribe if absent);
      -- pa.clients[c] = clientStatePreRemove
      let st := (lookupClient s.clients c).getD ClientState.waitingDescribe
      let s1 := { s with clients := setClient s.clients c ClientState.preRemove }
      let p1 :=
        match st with
        | ClientState.play =>
          ({ s1 with countReaders := s1.countReaders - 1,
                     readers := s1.readers.filter (fun r => !(r == c)) }, ([] : List Out))
        | ClientState.record =>
          rcExec f RCmd.snr { s1 with countPublishers := s1.countPublishers - 1 }
        | _ => (s1, ([] : List Out))
      let p2 :=
        if p1.1.source == some (SourceVal.client c) then
          rcExec f (RCmd.removeLoop (p1.1.clients.map Prod.fst))
            { p1.1 with source := none }
        else (p1.1, ([] : List Out))
      (schedules p2.1, p1.2 ++ p2.2)
    | RCmd.removeLoop [] => (s, [])
    | RCmd.removeLoop (k :: ks) =>
      match lookupClient s.clients k with
      | some st =>
        if st ≠ ClientState.preRemove ∧ st ≠ ClientState.waitingDescribe then
          let p1 := rcExec f (RCmd.remove k) s
          let p2 := rcExec f (RCmd.removeLoop ks) p1.1
          (p2.1, p1.2 ++ [Out.clientClose k] ++ p2.2)
        else rcExec f (RCmd.removeLoop ks) s
      | none => rcExec f (RCmd.removeLoop ks) s
    | RCmd.snr =>
      rcExec f (RCmd.snrLoop (s.clients.map Prod.fst))
        { s with sourceState := SourceState.notReady }
    | RCmd.snrLoop [] => (s, [])
    | RCmd.snrLoop (k :: ks) =>
      match lookupClient s.clients k with
      | some st =>
        if st = ClientState.waitingDescribe then
          -- panic("not possible")
          ({ s with panicked := true }, [])
        else if ¬ (s.source == some (SourceVal.client k)) ∧ st ≠ ClientState.preRemove then
          let p1 := rcExec f (RCmd.remove k) s
          let p2 := rcExec f (RCmd.snrLoop ks) p1.1
          (p2.1, p1.2 ++ [Out.clientClose k] ++ p2.2)
        else rcExec f (RCmd.snrLoop ks) s
      | none => rcExec f (RCmd.snrLoop ks) s

/-- Canonical fuel for `rcExec`: ample for the bounded recursion depth of
the source (see `rcExec`). -/
def rcFuel (s : PathState) : Nat := 4 * s.clients.length + 8

/-- `Path.removeClient`. -/
def removeClient (s : PathState) (c : Nat) : PathState × List Out :=
  rcExec (rcFuel s) (RCmd.remove c) s

/-- `Path.onSourceSetNotReady`. -/
def onSourceSetNotReady (s : PathState) : PathState × List Out :=
  rcExec (rcFuel s) RCmd.snr s

/-- The reply loop of `Path.onSourceSetReady`: every client in
`WaitingDescribe` is removed and receives the stored sdp. -/
def ssrLoop : PathState → List Nat → PathState × List Out
  | s, [] => (s, [])
  | s, k :: ks =>
    if lookupClient s.clients k == some ClientState.waitingDescribe then
      let p1 := removeClient s k
      let cb := Out.describeData k p1.1.sourceSdp "" none
      let p2 := ssrLoop p1.1 ks
      (p2.1, p1.2 ++ [cb] ++ p2.2)
    else ssrLoop s ks

/-- `Path.onSourceSetReady`. -/
def onSourceSetReady (s : PathState) : PathState × List Out :=
  let s1 :=
    if s.sourceState == SourceState.waitingDescribe then
      { s with describeTimerArmed := false }
    else s
  let s2 := { s1 with sourceState := SourceState.ready }
  let p := ssrLoop s2 (s2.clients.map Prod.fst)
  (schedules p.1, p.2)

/-- The eviction loop of the `describeTimer` branch of `Path.run`: every
client in `WaitingDescribe` is removed and receives the timeout error. -/
def dtLoop : PathState → List Nat → PathState × List Out
  | s, [] => (s, [])
  | s, k :: ks =>
    if lookupClient s.clients k == some ClientState.waitingDescribe then
      let p1 := removeClient s k
      let cb := Out.describeData k none "" (some (PathErr.publisherTimedOut p1.1.name))
      let p2 := dtLoop p1.1 ks
      (p2.1, p1.2 ++ [cb] ++ p2.2)
    else dtLoop s ks

/-- The `describeTimer` branch of `Path.run`: evict the waiting clients,
then reset `sourceState` (after the removals, "so schedule* works once"),
then run the three schedule checks. -/
def onDescribeTimer (s : PathState) : PathState × List Out :=
  let p := dtLoop s (s.clients.map Prod.fst)
  let s1 := { p.1 with sourceState := SourceState.notReady }
  (schedules s1, p.2)

/-- The timer-cancel block shared by `Path.onClientDescribe` and
`Path.onClientSetupPlay`: cancel the on-demand source-close and
command-close timers if they are running. -/
def cancelIdleTimers (s : PathState) : PathState :=
  if s.sourceCloseTimerStarted then
    if s.runOnDemandCloseTimerStarted then
      { s with sourceCloseTimerStarted := false, runOnDemandCloseTimerStarted := false }
    else { s with sourceCloseTimerStarted := false }
  else
    if s.runOnDemandCloseTimerStarted then { s with runOnDemandCloseTimerStarted := false }
    else s

/-- The second preamble block of `Path.onClientDescribe`: start the
on-demand external source when one is configured and absent, arming the
describe timer and entering `WaitingDescribe` unless already there. -/
def describeStartSource (s : PathState) : PathState :=
  if hasExternalSource s.conf then
    if s.source == none then
      if ¬ (s.sourceState = SourceState.waitingDescribe) then
        { s with source := some SourceVal.external,
                 describeTimerArmed := true, sourceState := SourceState.waitingDescribe }
      else { s with source := some SourceVal.external }
    else s
  else s

/-- The third preamble block of `Path.onClientDescribe`: start the
on-demand command when configured and not running, arming the describe
timer and entering `WaitingDescribe` unless already there. -/
def describeStartCmd (s : PathState) : PathState :=
  if s.conf.runOnDemand then
    if !s.onDemandCmd then
      if ¬ (s.sourceState = SourceState.waitingDescribe) then
        { s with onDemandCmd := true,
                 describeTimerArmed := true, sourceState := SourceState.waitingDescribe }
      else { s with onDemandCmd := true }
    else s
  else s

/-- The preamble of `Path.onClientDescribe`: cancel the two idle-close
timers, start the on-demand external source and the on-demand command. -/
def describePreamble (s : PathState) : PathState :=
  describeStartCmd (describeStartSource (cancelIdleTimers s))

/-- `Path.onClientDescribe` (membership was already checked by the
`clientDescribe` branch of `run`). -/
def onClientDescribe (s : PathState) (c : Nat) : PathState × List Out :=
  let s1 := describePreamble s
  if s1.source == some SourceVal.redirect then
    let s2 := addClient s1 c ClientState.preRemove
    let p := removeClient s2 c
    (p.1, p.2 ++ [Out.describeData c none s1.conf.sourceRedirect none])
  else
    match s1.sourceState with
    | SourceState.ready =>
      let s2 := addClient s1 c ClientState.preRemove
      let p := removeClient s2 c
      (p.1, p.2 ++ [Out.describeData c s1.sourceSdp "" none])
    | SourceState.waitingDescribe =>
      (addClient s1 c ClientState.waitingDescribe, [])
    | SourceState.notReady =>
      let s2 := addClient s1 c ClientState.preRemove
      let p := removeClient s2 c
      (p.1, p.2 ++ [Out.describeData c none "" (some (PathErr.noOnePublishing s1.name))])

/-- `Path.onClientSetupPlay`. -/
def onClientSetupPlay (s : PathState) (c : Nat) (trackId : Int) :
    PathState × Option PathErr :=
  if ¬ (s.sourceState = SourceState.ready) then
    (s, some (PathErr.noOnePublishing s.name))
  else if (s.sourceTrackCount : Int) ≤ trackId then
    (s, some (PathErr.trackDoesNotExist trackId))
  else if (lookupClient s.clients c).isSome then (s, none)
  else (addClient (cancelIdleTimers s) c ClientState.prePlay, none)

/-- `Path.onClientPlay`. -/
def onClientPlay (s : PathState) (c : Nat) : PathState :=
  match lookupClient s.clients c with
  | none => s
  | some st =>
    if ¬ (st = ClientState.prePlay) then s
    else
      { s with countReaders := s.countReaders + 1,
               clients := setClient s.clients c ClientState.play,
               readers := s.readers ++ [c] }

/-- `Path.onClientAnnounce`. -/
def onClientAnnounce (s : PathState) (c : Nat) (tracks : Tracks) :
    PathState × Option PathErr :=
  if (lookupClient s.clients c).isSome then (s, some PathErr.alreadySubscribed)
  else if ¬ (s.source = none) ∨ hasExternalSource s.conf then
    (s, some (PathErr.alreadyPublishing s.name))
  else
    let s1 := addClient s c ClientState.preRecord
    ({ s1 with source := some (SourceVal.client c),
               sourceTrackCount := tracks.length,
               sourceSdp := some (tracksWrite tracks) }, none)

/-- `Path.onClientRecord`. -/
def onClientRecord (s : PathState) (c : Nat) : PathState × List Out :=
  match lookupClient s.clients c with
  | none => (s, [])
  | some st =>
    if ¬ (st = ClientState.preRecord) then (s, [])
    else
      let s1 := { s with countPublishers := s.countPublishers + 1,
                         clients := setClient s.clients c ClientState.record }
      onSourceSetReady s1

/-- The events the live actor can select: the four state-relevant timers
and the six request channels (`closeTimer`/`terminate` start the terminal
teardown, after which there is no live actor state, and are not steps). -/
inductive Event
  | describeTimerFire
  | sourceCloseTimerFire
  | runOnDemandCloseTimerFire
  | sourceSetReady (tracks : Tracks)
  | sourceSetNotReady
  | clientDescribe (c : Nat)
  | clientSetupPlay (c : Nat) (trackId : Int)
  | clientPlay (c : Nat)
  | clientAnnounce (c : Nat) (tracks : Tracks)
  | clientRecord (c : Nat)
  | clientRemove (c : Nat)

/-- One iteration of the `Path.run` select loop.  An event whose enabling
condition does not hold (a timer that is not armed, a source signal that
the external source cannot emit) is a stutter step. -/
def step (s : PathState) (e : Event) : PathState × List Out :=
  if s.panicked then (s, []) else
  match e with
  | Event.describeTimerFire =>
    if s.describeTimerArmed then onDescribeTimer { s with describeTimerArmed := false }
    else (s, [])
  | Event.sourceCloseTimerFire =>
    if s.sourceCloseTimerStarted then
      let s1 := { s with sourceCloseTimerStarted := false }
      match s1.source with
      | some SourceVal.external => (scheduleClose { s1 with source := none }, [])
      | _ => ({ s1 with panicked := true }, [])
    else (s, [])
  | Event.runOnDemandCloseTimerFire =>
    if s.runOnDemandCloseTimerStarted then
      (scheduleClose { s with runOnDemandCloseTimerStarted := false, onDemandCmd := false },
       [])
    else (s, [])
  | Event.sourceSetReady tracks =>
    if s.source == some SourceVal.external && !s.extReady then
      onSourceSetReady
        { s with sourceSdp := some (tracksWrite tracks),
                 sourceTrackCount := tracks.length, extReady := true }
    else (s, [])
  | Event.sourceSetNotReady =>
    if s.extReady then onSourceSetNotReady { s with extReady := false }
    else (s, [])
  | Event.clientDescribe c =>
    if (lookupClient s.clients c).isSome then
      (s, [Out.describeRes c (some PathErr.alreadySubscribed)])
    else
      let p := onClientDescribe s c
      (p.1, Out.describeRes c none :: p.2)
  | Event.clientSetupPlay c trackId =>
    let p := onClientSetupPlay s c trackId
    (p.1, [Out.setupPlayRes c p.2])
  | Event.clientPlay c => (onClientPlay s c, [])
  | Event.clientAnnounce c tracks =>
    let p := onClientAnnounce s c tracks
    (p.1, [Out.announceRes c p.2])
  | Event.clientRecord c => onClientRecord s c
  | Event.clientRemove c =>
    if (lookupClient s.clients c).isSome then
      let p :=
        if ¬ (lookupClient s.clients c = some ClientState.preRemove) then removeClient s c
        else (s, [])
      ({ p.1 with clients := eraseClient p.1.clients c }, p.2)
    else (s, [])

/-- The state of a freshly constructed path after the head of `Path.run`
(redirect sentinel or non-on-demand external source installed). -/
def initState (conf : PathConf) (name : String) : PathState :=
  { conf := conf
    name := name
    clients := []
    source :=
      if conf.source == SourceKind.redirect then some SourceVal.redirect
      else if hasExternalSource conf && !conf.sourceOnDemand then some SourceVal.external
      else none
    sourceTrackCount := 0
    sourceSdp := none
    readers := []
    countReaders := 0
    countPublishers := 0
    describeTimerArmed := false
    sourceCloseTimerStarted := false
    runOnDemandCloseTimerStarted := false
    closeTimerStarted := false
    onDemandCmd := false
    sourceState := SourceState.notReady
    extReady := false
    panicked := false }

/-- States of the live actor: the initial state of any configuration and
everything `step` can reach from it. -/
inductive Reachable : PathState → Prop
  | init (conf : PathConf) (name : String) : Reachable (initState conf name)
  | step (s : PathState) (e : Event) : Reachable s → Reachable (step s e).1

/-- Run a list of events from the initial state of a configuration. -/
def runTrace (conf : PathConf) (name : String) (es : List Event) : PathState :=
  es.foldl (fun s e => (step s e).1) (initState conf name)

/-- Whether a client state makes the client the publisher. -/
def isPub (st : ClientState) : Prop :=
  st = ClientState.preRecord ∨ st = ClientState.record

instance (st : ClientState) : Decidable (isPub st) := by
  unfold isPub; infer_instance

/-- The inductive invariant of the path actor (the conjunction needed by
the invariant claims):
* client-map keys are unique;
* a client in `PreRecord`/`Record` is the `source` (hence unique);
* a connected-client source only exists on paths without an external
  source configuration;
* `Ready` implies the sdp is stored, as does the presence of a publisher
  (the publisher stored it on announce);
* the source-close timer is armed only under the preconditions of
  `scheduleSourceClose`. -/
structure Inv (s : PathState) : Prop where
  nodup : (s.clients.map Prod.fst).Nodup
  pubSrc : ∀ x st, (x, st) ∈ s.clients → isPub st → s.source = some (SourceVal.client x)
  srcClient : ∀ x, s.source = some (SourceVal.client x) → hasExternalSource s.conf = false
  sdpReady : s.sourceState = SourceState.ready → s.sourceSdp.isSome = true
  sdpPub : ∀ x st, (x, st) ∈ s.clients → isPub st → s.sourceSdp.isSome = true
  tmr : s.sourceCloseTimerStarted = true →
    hasExternalSource s.conf = true ∧ s.conf.sourceOnDemand = true ∧
    s.source ≠ none ∧ hasClients s = false ∧
    s.sourceState ≠ SourceState.waitingDescribe

/-- The invariant, or the process has crashed (a panicked state has no
live actor behind it). -/
def InvAll (s : PathState) : Prop := s.panicked = true ∨ Inv s

/-- Facts relating a state to the result of any run of the removal
machinery (`rcExec`): the configuration, name, sdp, track count, command
flag, describe-timer flag and ghost flag are untouched; the source is
preserved or cleared; the source state is preserved or reset to
`NotReady`; a panic is sticky; client entries are preserved or set to
`PreRemove`; a `PreRemove` entry stays; key uniqueness is preserved; an
armed source-close timer stays armed or the run arms it. -/
structure RCFacts (s t : PathState) : Prop where
  conf : t.conf = s.conf
  name : t.name = s.name
  sdp : t.sourceSdp = s.sourceSdp
  count : t.sourceTrackCount = s.sourceTrackCount
  cmd : t.onDemandCmd = s.onDemandCmd
  dta : t.describeTimerArmed = s.describeTimerArmed
  ext : t.extReady = s.extReady
  src : t.source = s.source ∨ t.source = none
  sst : t.sourceState = s.sourceState ∨ t.sourceState = SourceState.notReady
  pan : s.panicked = true → t.panicked = true
  mem : ∀ x st, (x, st) ∈ t.clients → (x, st) ∈ s.clients ∨ st = ClientState.preRemove
  pstab : ∀ x, lookupClient s.clients x = some ClientState.preRemove →
    lookupClient t.clients x = some ClientState.preRemove
  nod : (s.clients.map Prod.fst).Nodup → (t.clients.map Prod.fst).Nodup
  scmono : s.sourceCloseTimerStarted = true → t.sourceCloseTimerStarted = true

/-- Hypothesis of the flush-loop theorems: no client waiting for a
description is itself the stored source. -/
def WaitSrcOk (s : PathState) : Prop :=
  ∀ x, lookupClient s.clients x = some ClientState.waitingDescribe →
    s.source ≠ some (SourceVal.client x)

/-- Specification of one run of a waiting-client flush loop (the
`describeTimer` eviction loop and the `onSourceSetReady` reply loop) from
state `s` over key list `keys`, emitting callback `cb x` per flushed
client: result state `t`, emitted outputs `outs`. -/
structure FlushSpec (s : PathState) (keys : List Nat) (cb : Nat → Out)
    (t : PathState) (outs : List Out) : Prop where
  pan : t.panicked = false
  conf : t.conf = s.conf
  name : t.name = s.name
  src : t.source = s.source
  sst : t.sourceState = s.sourceState
  sdp : t.sourceSdp = s.sourceSdp
  dta : t.describeTimerArmed = s.describeTimerArmed
  nodup : (t.clients.map Prod.fst).Nodup
  wsok : WaitSrcOk t
  removed : ∀ x, x ∈ keys →
    lookupClient s.clients x = some ClientState.waitingDescribe →
    lookupClient t.clients x = some ClientState.preRemove
  pstab : ∀ x, lookupClient s.clients x = some ClientState.preRemove →
    lookupClient t.clients x = some ClientState.preRemove
  once : ∀ x, x ∈ keys →
    lookupClient s.clients x = some ClientState.waitingDescribe →
    outs.count (cb x) = 1
  zero : ∀ x, x ∉ keys ∨
      ¬ (lookupClient s.clients x = some ClientState.waitingDescribe) →
    outs.count (cb x) = 0
  mem : ∀ x st, (x, st) ∈ t.clients →
    (x, st) ∈ s.clients ∨ st = ClientState.preRemove

end Path

namespace Path
/-! ### Association-list lemmas for the client map -/

theorem lookup_nil (c : Nat) : lookupClient [] c = none := rfl

theorem lookup_cons (p : Nat × ClientState) (l : List (Nat × ClientState)) (c : Nat) :
    lookupClient (p :: l) c = if p.1 = c then some p.2 else lookupClient l c := rfl

theorem lookup_mem {l : List (Nat × ClientState)} {x : Nat} {st : ClientState} :
    lookupClient l x = some st → (x, st) ∈ l := by
  induction l with
  | nil => intro h; simp [lookupClient] at h
  | cons p l ih =>
    intro h
    obtain ⟨a, b⟩ := p
    by_cases hk : a = x
    · subst hk
      simp [lookupClient] at h
      subst h
      exact List.mem_cons_self _ _
    · simp [lookupClient, hk] at h
      exact List.mem_cons_of_mem _ (ih h)

theorem lookup_none_iff {l : List (Nat × ClientState)} {x : Nat} :
    lookupClient l x = none ↔ x ∉ l.map Prod.fst := by
  induction l with
  | nil => simp [lookupClient]
  | cons p l ih =>
    obtain ⟨a, b⟩ := p
    by_cases hk : a = x
    · subst hk; simp [lookupClient]
    · have hk2 : x ≠ a := fun he => hk he.symm
      simp [lookupClient, hk, hk2, ih]

theorem mem_lookup {l : List (Nat × ClientState)} (hnd : (l.map Prod.fst).Nodup)
    {x : Nat} {st : ClientState} (h : (x, st) ∈ l) : lookupClient l x = some st := by
  induction l with
  | nil => simp at h
  | cons p l ih =>
    simp only [List.map_cons, List.nodup_cons] at hnd
    rcases List.mem_cons.1 h with h1 | h1
    · subst h1; simp [lookup_cons]
    · have hx : p.1 ≠ x := by
        intro he
        exact hnd.1 (he ▸ List.mem_map.2 ⟨(x, st), h1, rfl⟩)
      rw [lookup_cons, if_neg hx]
      exact ih hnd.2 h1

theorem lookup_append (l m : List (Nat × ClientState)) (x : Nat) :
    lookupClient (l ++ m) x =
      match lookupClient l x with
      | some st => some st
      | none => lookupClient m x := by
  induction l with
  | nil => simp [lookupClient]
  | cons p l ih =>
    by_cases hk : p.1 = x <;> simp [lookup_cons, hk, ih]

theorem lookup_setClient_self (l : List (Nat × ClientState)) (c : Nat) (st : ClientState) :
    lookupClient (setClient l c st) c = some st := by
  induction l with
  | nil => simp [setClient, lookupClient]
  | cons p l ih =>
    by_cases hk : p.1 = c <;> simp [setClient, hk, lookup_cons, ih]

theorem lookup_setClient_ne (l : List (Nat × ClientState)) {x c : Nat} (st : ClientState)
    (h : x ≠ c) : lookupClient (setClient l c st) x = lookupClient l x := by
  have hcx : ¬ (c = x) := fun he => h he.symm
  induction l with
  | nil => simp [setClient, lookupClient, hcx]
  | cons p l ih =>
    obtain ⟨a, b⟩ := p
    by_cases hk : a = c
    · subst hk
      simp [setClient, lookupClient, hcx]
    · simp [setClient, lookupClient, hk, ih]

theorem mem_setClient_weak {l : List (Nat × ClientState)} {c : Nat} {st : ClientState}
    {q : Nat × ClientState} (h : q ∈ setClient l c st) : q ∈ l ∨ q = (c, st) := by
  induction l with
  | nil =>
    simp [setClient] at h
    right; exact h
  | cons p l ih =>
    by_cases hk : p.1 = c
    · simp only [setClient, if_pos hk] at h
      rcases List.mem_cons.1 h with h1 | h1
      · right; exact h1
      · left; exact List.mem_cons_of_mem _ h1
    · simp only [setClient, if_neg hk] at h
      rcases List.mem_cons.1 h with h1 | h1
      · left; exact h1 ▸ List.mem_cons_self _ _
      · rcases ih h1 with h2 | h2
        · left; exact List.mem_cons_of_mem _ h2
        · right; exact h2

theorem mem_setClient_of_ne {l : List (Nat × ClientState)} {c : Nat} {st : ClientState}
    {q : Nat × ClientState} (h : q ∈ l) (hne : q.1 ≠ c) : q ∈ setClient l c st := by
  induction l with
  | nil => simp at h
  | cons p l ih =>
    by_cases hk : p.1 = c
    · simp only [setClient, if_pos hk]
      rcases List.mem_cons.1 h with h1 | h1
      · exact absurd (h1 ▸ hk) hne
      · exact List.mem_cons_of_mem _ h1
    · simp only [setClient, if_neg hk]
      rcases List.mem_cons.1 h with h1 | h1
      · exact h1 ▸ List.mem_cons_self _ _
      · exact List.mem_cons_of_mem _ (ih h1)

theorem keys_setClient (l : List (Nat × ClientState)) (c : Nat) (st : ClientState) :
    (setClient l c st).map Prod.fst = l.map Prod.fst ∨
    (setClient l c st).map Prod.fst = l.map Prod.fst ++ [c] := by
  induction l with
  | nil => right; simp [setClient]
  | cons p l ih =>
    by_cases hk : p.1 = c
    · left; simp [setClient, hk]
    · rcases ih with h | h
      · left
        simp only [setClient, if_neg hk, List.map_cons, h]
      · right
        simp only [setClient, if_neg hk, List.map_cons, h, List.cons_append]

theorem nodup_setClient {l : List (Nat × ClientState)} {c : Nat} {st : ClientState}
    (hnd : (l.map Prod.fst).Nodup) : ((setClient l c st).map Prod.fst).Nodup := by
  induction l with
  | nil => simp [setClient]
  | cons p l ih =>
    simp only [List.map_cons, List.nodup_cons] at hnd
    by_cases hk : p.1 = c
    · simp only [setClient, if_pos hk, List.map_cons, List.nodup_cons]
      exact ⟨hk ▸ hnd.1, hnd.2⟩
    · simp only [setClient, if_neg hk, List.map_cons, List.nodup_cons]
      refine ⟨?_, ih hnd.2⟩
      intro hmem
      rcases keys_setClient l c st with h | h
      · exact hnd.1 (h ▸ hmem)
      · rw [h] at hmem
        rcases List.mem_append.1 hmem with h1 | h1
        · exact hnd.1 h1
        · simp at h1; exact hk h1

theorem mem_eraseClient {l : List (Nat × ClientState)} {c : Nat}
    {q : Nat × ClientState} (h : q ∈ eraseClient l c) : q ∈ l :=
  List.mem_of_mem_filter h

theorem nodup_eraseClient {l : List (Nat × ClientState)} {c : Nat}
    (hnd : (l.map Prod.fst).Nodup) : ((eraseClient l c).map Prod.fst).Nodup :=
  ((List.filter_sublist l).map Prod.fst).nodup hnd

theorem hasClients_false_iff {s : PathState} :
    hasClients s = false ↔ ∀ q ∈ s.clients, q.2 = ClientState.preRemove := by
  unfold hasClients
  rw [List.any_eq_false]
  constructor
  · intro h q hq
    have := h q hq
    simpa using this
  · intro h q hq
    simpa using h q hq


/-! ### The schedule checks only touch the timer flags -/

theorem schedules_fields (s : PathState) :
    (schedules s).conf = s.conf ∧ (schedules s).name = s.name ∧
    (schedules s).clients = s.clients ∧ (schedules s).source = s.source ∧
    (schedules s).sourceState = s.sourceState ∧ (schedules s).sourceSdp = s.sourceSdp ∧
    (schedules s).sourceTrackCount = s.sourceTrackCount ∧
    (schedules s).onDemandCmd = s.onDemandCmd ∧
    (schedules s).describeTimerArmed = s.describeTimerArmed ∧
    (schedules s).extReady = s.extReady ∧ (schedules s).panicked = s.panicked ∧
    (schedules s).readers = s.readers ∧ (schedules s).countReaders = s.countReaders ∧
    (schedules s).countPublishers = s.countPublishers := by
  unfold schedules scheduleClose scheduleRunOnDemandClose scheduleSourceClose
  split_ifs <;> simp

theorem schedules_scmono (s : PathState)
    (h : s.sourceCloseTimerStarted = true) :
    (schedules s).sourceCloseTimerStarted = true := by
  unfold schedules scheduleClose scheduleRunOnDemandClose scheduleSourceClose
  split_ifs <;> simp [h]

theorem scheduleSourceClose_cases (s : PathState) :
    scheduleSourceClose s = s ∨
    (scheduleSourceClose s = { s with sourceCloseTimerStarted := true } ∧
     hasExternalSource s.conf = true ∧ s.conf.sourceOnDemand = true ∧
     ¬ (s.source = none) ∧ s.sourceCloseTimerStarted = false ∧
     ¬ (s.sourceState = SourceState.waitingDescribe) ∧ hasClients s = false) := by
  unfold scheduleSourceClose
  split_ifs with h1 h2
  · left; rfl
  · left; rfl
  · right
    simp only [Bool.or_eq_true, Bool.not_eq_true', beq_iff_eq, not_or,
      Bool.not_eq_false, Bool.not_eq_true] at h1 h2
    exact ⟨rfl, h1.1.1, h1.1.2, h1.2, h2.1.1, h2.1.2, h2.2⟩

theorem scheduleRunOnDemandClose_cases (s : PathState) :
    scheduleRunOnDemandClose s = s ∨
    scheduleRunOnDemandClose s = { s with runOnDemandCloseTimerStarted := true } := by
  unfold scheduleRunOnDemandClose
  split_ifs <;> simp

theorem scheduleClose_cases (s : PathState) :
    scheduleClose s = s ∨ scheduleClose s = { s with closeTimerStarted := true } := by
  unfold scheduleClose
  split_ifs <;> simp

theorem schedules_arm (s : PathState)
    (hext : hasExternalSource s.conf = true) (hod : s.conf.sourceOnDemand = true)
    (hsrc : ¬ (s.source = none)) (hst : ¬ (s.sourceState = SourceState.waitingDescribe))
    (hcl : hasClients s = false) :
    (schedules s).sourceCloseTimerStarted = true := by
  by_cases hstart : s.sourceCloseTimerStarted = true
  · exact schedules_scmono s hstart
  · have h1 : scheduleSourceClose s = { s with sourceCloseTimerStarted := true } := by
      unfold scheduleSourceClose
      rw [if_neg, if_neg]
      · simp only [Bool.or_eq_true, beq_iff_eq, not_or, Bool.not_eq_true]
        refine ⟨⟨?_, hst⟩, hcl⟩
        simpa using hstart
      · simp only [Bool.or_eq_true, Bool.not_eq_true', beq_iff_eq, not_or,
          Bool.not_eq_false]
        exact ⟨⟨hext, hod⟩, hsrc⟩
    have h4 : (schedules s) =
        scheduleClose (scheduleRunOnDemandClose { s with sourceCloseTimerStarted := true }) := by
      unfold schedules
      rw [h1]
    rw [h4]
    rcases scheduleRunOnDemandClose_cases { s with sourceCloseTimerStarted := true } with
      h2 | h2 <;> rw [h2]
    · rcases scheduleClose_cases { s with sourceCloseTimerStarted := true } with h3 | h3 <;>
        rw [h3]
    · rcases scheduleClose_cases
        { s with sourceCloseTimerStarted := true, runOnDemandCloseTimerStarted := true }
        with h3 | h3 <;> rw [h3]

theorem RCFacts_refl (s : PathState) : RCFacts s s :=
  ⟨rfl, rfl, rfl, rfl, rfl, rfl, rfl, Or.inl rfl, Or.inl rfl, id,
   fun _ _ h => Or.inl h, fun _ h => h, id, id⟩

theorem RCFacts_schedules (s : PathState) : RCFacts s (schedules s) := by
  obtain ⟨h1, h2, h3, h4, h5, h6, h7, h8, h9, h10, h11, _, _, _⟩ := schedules_fields s
  exact ⟨h1, h2, h6, h7, h8, h9, h10, Or.inl h4, Or.inl h5, fun hp => h11.trans hp,
    fun x st hm => Or.inl (h3 ▸ hm), fun x hx => h3 ▸ hx, fun hnd => h3 ▸ hnd,
    fun hm => schedules_scmono s hm⟩

theorem RCFacts_trans {s t u : PathState} (h1 : RCFacts s t) (h2 : RCFacts t u) :
    RCFacts s u := by
  refine ⟨h2.conf.trans h1.conf, h2.name.trans h1.name, h2.sdp.trans h1.sdp,
    h2.count.trans h1.count, h2.cmd.trans h1.cmd, h2.dta.trans h1.dta,
    h2.ext.trans h1.ext, ?_, ?_, fun hp => h2.pan (h1.pan hp), ?_, ?_,
    fun hnd => h2.nod (h1.nod hnd), fun hm => h2.scmono (h1.scmono hm)⟩
  · rcases h2.src with h | h
    · rw [h]; exact h1.src
    · right; exact h
  · rcases h2.sst with h | h
    · rw [h]; exact h1.sst
    · right; exact h
  · intro x st hmem
    rcases h2.mem x st hmem with h | h
    · exact h1.mem x st h
    · right; exact h
  · intro x hx
    exact h2.pstab x (h1.pstab x hx)

theorem RCFacts_set_preRemove (s : PathState) (c : Nat) :
    RCFacts s { s with clients := setClient s.clients c ClientState.preRemove } := by
  refine ⟨rfl, rfl, rfl, rfl, rfl, rfl, rfl, Or.inl rfl, Or.inl rfl, id, ?_, ?_, ?_, id⟩
  · intro x st hmem
    rcases mem_setClient_weak hmem with h | h
    · exact Or.inl h
    · right; exact congrArg Prod.snd h
  · intro x hx
    by_cases hxc : x = c
    · subst hxc; exact lookup_setClient_self _ _ _
    · rw [lookup_setClient_ne _ _ hxc]; exact hx
  · exact fun hnd => nodup_setClient hnd

theorem RCFacts_counters (s : PathState) (a b : Int) (rs : List Nat) :
    RCFacts s { s with countReaders := a, countPublishers := b, readers := rs } :=
  ⟨rfl, rfl, rfl, rfl, rfl, rfl, rfl, Or.inl rfl, Or.inl rfl, id,
   fun _ _ h => Or.inl h, fun _ h => h, id, id⟩

theorem RCFacts_source_none (s : PathState) : RCFacts s { s with source := none } :=
  ⟨rfl, rfl, rfl, rfl, rfl, rfl, rfl, Or.inr rfl, Or.inl rfl, id,
   fun _ _ h => Or.inl h, fun _ h => h, id, id⟩

theorem RCFacts_notReady (s : PathState) :
    RCFacts s { s with sourceState := SourceState.notReady } :=
  ⟨rfl, rfl, rfl, rfl, rfl, rfl, rfl, Or.inl rfl, Or.inr rfl, id,
   fun _ _ h => Or.inl h, fun _ h => h, id, id⟩

theorem RCFacts_panic (s : PathState) : RCFacts s { s with panicked := true } :=
  ⟨rfl, rfl, rfl, rfl, rfl, rfl, rfl, Or.inl rfl, Or.inl rfl, fun _ => rfl,
   fun _ _ h => Or.inl h, fun _ h => h, id, id⟩

theorem rcExec_facts : ∀ (fuel : Nat) (cmd : RCmd) (s : PathState),
    RCFacts s (rcExec fuel cmd s).1 := by
  intro fuel
  induction fuel with
  | zero =>
    intro cmd s
    rw [rcExec.eq_def]
    exact RCFacts_panic s
  | succ f ih =>
    intro cmd s
    by_cases hp : s.panicked = true
    · have heq : rcExec (f + 1) cmd s = (s, []) := by
        rw [rcExec.eq_def]; simp [hp]
      rw [heq]
      exact RCFacts_refl s
    · cases cmd with
      | remove c =>
        rw [rcExec.eq_def]
        dsimp only
        rw [if_neg hp]
        refine RCFacts_trans ?_ (RCFacts_schedules _)
        have hdef : ∀ t : PathState, RCFacts s t → RCFacts s
            ((if (t.source == some (SourceVal.client c)) = true then
                rcExec f (RCmd.removeLoop (t.clients.map Prod.fst)) { t with source := none }
              else (t, [])).1) := by
          intro t h
          split
          · exact RCFacts_trans h (RCFacts_trans (RCFacts_source_none _) (ih _ _))
          · exact h
        rcases hst : (lookupClient s.clients c).getD ClientState.waitingDescribe with
          _ | _ | _ | _ | _ | _ <;> dsimp only
        · exact hdef _ (RCFacts_set_preRemove s c)
        · exact hdef _ (RCFacts_set_preRemove s c)
        · exact hdef _
            (RCFacts_trans (RCFacts_set_preRemove s c) (RCFacts_counters _ _ _ _))
        · exact hdef _ (RCFacts_set_preRemove s c)
        · exact hdef _
            (RCFacts_trans (RCFacts_trans (RCFacts_set_preRemove s c)
              (RCFacts_counters _ _ _ _)) (ih _ _))
        · exact hdef _ (RCFacts_set_preRemove s c)
      | removeLoop keys =>
        cases keys with
        | nil =>
          have heq : rcExec (f + 1) (RCmd.removeLoop []) s = (s, []) := by
            rw [rcExec.eq_def]; simp [hp]
          rw [heq]
          exact RCFacts_refl s
        | cons k ks =>
          rw [rcExec.eq_def]
          dsimp only
          rw [if_neg hp]
          rcases hlk : lookupClient s.clients k with _ | st <;> dsimp only
          · exact ih _ _
          · split
            · exact RCFacts_trans (ih _ _) (ih _ _)
            · exact ih _ _
      | snr =>
        rw [rcExec.eq_def]
        dsimp only
        rw [if_neg hp]
        exact RCFacts_trans (RCFacts_notReady s) (ih _ _)
      | snrLoop keys =>
        cases keys with
        | nil =>
          have heq : rcExec (f + 1) (RCmd.snrLoop []) s = (s, []) := by
            rw [rcExec.eq_def]; simp [hp]
          rw [heq]
          exact RCFacts_refl s
        | cons k ks =>
          rw [rcExec.eq_def]
          dsimp only
          rw [if_neg hp]
          rcases hlk : lookupClient s.clients k with _ | st <;> dsimp only
          · exact ih _ _
          · split
            · exact RCFacts_panic s
            · split
              · exact RCFacts_trans (ih _ _) (ih _ _)
              · exact ih _ _

/-! ### Invariant preservation through the removal machinery -/

theorem hasClients_false_mono {s t : PathState}
    (hsub : ∀ x st, (x, st) ∈ t.clients → (x, st) ∈ s.clients ∨ st = ClientState.preRemove)
    (h : hasClients s = false) : hasClients t = false := by
  rw [hasClients_false_iff] at h ⊢
  intro q hq
  rcases hsub q.1 q.2 hq with h1 | h1
  · exact h _ h1
  · exact h1

theorem InvAll_of_panicked {s : PathState} (h : s.panicked = true) : InvAll s := Or.inl h

theorem Inv_set_preRemove {s : PathState} (c : Nat) (h : Inv s) :
    Inv { s with clients := setClient s.clients c ClientState.preRemove } := by
  refine ⟨nodup_setClient h.nodup, ?_, h.srcClient, h.sdpReady, ?_, ?_⟩
  · intro x st hm hpub
    rcases mem_setClient_weak hm with h1 | h1
    · exact h.pubSrc x st h1 hpub
    · have hst2 : st = ClientState.preRemove := congrArg Prod.snd h1
      rcases hpub with h2 | h2 <;> rw [hst2] at h2 <;> simp at h2
  · intro x st hm hpub
    rcases mem_setClient_weak hm with h1 | h1
    · exact h.sdpPub x st h1 hpub
    · have hst2 : st = ClientState.preRemove := congrArg Prod.snd h1
      rcases hpub with h2 | h2 <;> rw [hst2] at h2 <;> simp at h2
  · intro hf
    obtain ⟨e1, e2, e3, e4, e5⟩ := h.tmr hf
    refine ⟨e1, e2, e3, ?_, e5⟩
    refine hasClients_false_mono ?_ e4
    intro x st hm
    rcases mem_setClient_weak hm with h1 | h1
    · exact Or.inl h1
    · exact Or.inr (congrArg Prod.snd h1)

theorem Inv_counters {s : PathState} (a b : Int) (rs : List Nat) (h : Inv s) :
    Inv { s with countReaders := a, countPublishers := b, readers := rs } :=
  ⟨h.nodup, h.pubSrc, h.srcClient, h.sdpReady, h.sdpPub, h.tmr⟩

theorem Inv_notReady {s : PathState} (h : Inv s) :
    Inv { s with sourceState := SourceState.notReady } := by
  refine ⟨h.nodup, h.pubSrc, h.srcClient, ?_, h.sdpPub, ?_⟩
  · intro he; cases he
  · intro hf
    obtain ⟨e1, e2, e3, e4, _⟩ := h.tmr hf
    exact ⟨e1, e2, e3, e4, by intro he; cases he⟩

theorem Inv_scheduleSourceClose {s : PathState} (h : Inv s) :
    Inv (scheduleSourceClose s) := by
  rcases scheduleSourceClose_cases s with he | ⟨he, e1, e2, e3, _, e5, e6⟩
  · rw [he]; exact h
  · rw [he]
    exact ⟨h.nodup, h.pubSrc, h.srcClient, h.sdpReady, h.sdpPub,
      fun _ => ⟨e1, e2, e3, e6, e5⟩⟩

theorem Inv_scheduleRunOnDemandClose {s : PathState} (h : Inv s) :
    Inv (scheduleRunOnDemandClose s) := by
  rcases scheduleRunOnDemandClose_cases s with he | he <;> rw [he]
  · exact h
  · exact ⟨h.nodup, h.pubSrc, h.srcClient, h.sdpReady, h.sdpPub, h.tmr⟩

theorem Inv_scheduleClose {s : PathState} (h : Inv s) : Inv (scheduleClose s) := by
  rcases scheduleClose_cases s with he | he <;> rw [he]
  · exact h
  · exact ⟨h.nodup, h.pubSrc, h.srcClient, h.sdpReady, h.sdpPub, h.tmr⟩

theorem Inv_schedules {s : PathState} (h : Inv s) : Inv (schedules s) :=
  Inv_scheduleClose (Inv_scheduleRunOnDemandClose (Inv_scheduleSourceClose h))

theorem InvAll_schedules {s : PathState} (h : InvAll s) : InvAll (schedules s) := by
  rcases h with h | h
  · exact Or.inl (((schedules_fields s).2.2.2.2.2.2.2.2.2.2.1).trans h)
  · exact Or.inr (Inv_schedules h)

theorem rcExec_inv : ∀ (fuel : Nat) (cmd : RCmd) (s : PathState),
    InvAll s → InvAll (rcExec fuel cmd s).1 := by
  intro fuel
  induction fuel with
  | zero =>
    intro cmd s _
    rw [rcExec.eq_def]
    exact Or.inl rfl
  | succ f ih =>
    intro cmd s hs
    by_cases hp : s.panicked = true
    · have heq : rcExec (f + 1) cmd s = (s, []) := by
        rw [rcExec.eq_def]; simp [hp]
      rw [heq]
      exact hs
    · replace hs : Inv s := hs.resolve_left hp
      cases cmd with
      | remove c =>
        rw [rcExec.eq_def]
        dsimp only
        rw [if_neg hp]
        have hdef : ∀ t : PathState, InvAll t →
            lookupClient t.clients c = some ClientState.preRemove → InvAll
            ((if (t.source == some (SourceVal.client c)) = true then
                rcExec f (RCmd.removeLoop (t.clients.map Prod.fst)) { t with source := none }
              else (t, [])).1) := by
          intro t ht hlk
          split
          · next hcond =>
            refine ih _ _ ?_
            rcases ht with ht | ht
            · exact Or.inl ht
            · right
              rw [beq_iff_eq] at hcond
              have hext : hasExternalSource t.conf = false := ht.srcClient c hcond
              refine ⟨ht.nodup, ?_, ?_, ht.sdpReady, ht.sdpPub, ?_⟩
              · intro x st hm hpub
                have := ht.pubSrc x st hm hpub
                rw [hcond] at this
                have hxc : x = c := by
                  injection (Option.some.inj this) with h2
                  exact h2.symm
                subst hxc
                have := mem_lookup ht.nodup hm
                rw [hlk] at this
                injection this with h3
                subst h3
                rcases hpub with h4 | h4 <;> cases h4
              · intro x hx; cases hx
              · intro hf
                obtain ⟨e1, _, _, _, _⟩ := ht.tmr hf
                rw [hext] at e1
                cases e1
          · exact ht
        rcases hst : (lookupClient s.clients c).getD ClientState.waitingDescribe with
          _ | _ | _ | _ | _ | _ <;> dsimp only
        · exact InvAll_schedules
            (hdef { s with clients := setClient s.clients c ClientState.preRemove }
              (Or.inr (Inv_set_preRemove c hs)) (lookup_setClient_self _ _ _))
        · exact InvAll_schedules
            (hdef { s with clients := setClient s.clients c ClientState.preRemove }
              (Or.inr (Inv_set_preRemove c hs)) (lookup_setClient_self _ _ _))
        · exact InvAll_schedules
            (hdef { s with clients := setClient s.clients c ClientState.preRemove,
                           countReaders := s.countReaders - 1,
                           readers := s.readers.filter (fun r => !(r == c)) }
              (Or.inr (Inv_counters _ _ _ (Inv_set_preRemove c hs)))
              (lookup_setClient_self _ _ _))
        · exact InvAll_schedules
            (hdef { s with clients := setClient s.clients c ClientState.preRemove }
              (Or.inr (Inv_set_preRemove c hs)) (lookup_setClient_self _ _ _))
        · exact InvAll_schedules
            (hdef (rcExec f RCmd.snr
                { s with clients := setClient s.clients c ClientState.preRemove,
                         countPublishers := s.countPublishers - 1 }).1
              (ih _ _ (Or.inr (Inv_counters _ _ _ (Inv_set_preRemove c hs))))
              ((rcExec_facts f RCmd.snr _).pstab c (lookup_setClient_self _ _ _)))
        · exact InvAll_schedules
            (hdef { s with clients := setClient s.clients c ClientState.preRemove }
              (Or.inr (Inv_set_preRemove c hs)) (lookup_setClient_self _ _ _))
      | removeLoop keys =>
        cases keys with
        | nil =>
          have heq : rcExec (f + 1) (RCmd.removeLoop []) s = (s, []) := by
            rw [rcExec.eq_def]; simp [hp]
          rw [heq]
          exact Or.inr hs
        | cons k ks =>
          rw [rcExec.eq_def]
          dsimp only
          rw [if_neg hp]
          rcases hlk : lookupClient s.clients k with _ | st <;> dsimp only
          · exact ih _ _ (Or.inr hs)
          · split
            · exact ih _ _ (ih _ _ (Or.inr hs))
            · exact ih _ _ (Or.inr hs)
      | snr =>
        rw [rcExec.eq_def]
        dsimp only
        rw [if_neg hp]
        exact ih _ _ (Or.inr (Inv_notReady hs))
      | snrLoop keys =>
        cases keys with
        | nil =>
          have heq : rcExec (f + 1) (RCmd.snrLoop []) s = (s, []) := by
            rw [rcExec.eq_def]; simp [hp]
          rw [heq]
          exact Or.inr hs
        | cons k ks =>
          rw [rcExec.eq_def]
          dsimp only
          rw [if_neg hp]
          rcases hlk : lookupClient s.clients k with _ | st <;> dsimp only
          · exact ih _ _ (Or.inr hs)
          · split
            · exact Or.inl rfl
            · split
              · exact ih _ _ (ih _ _ (Or.inr hs))
              · exact ih _ _ (Or.inr hs)

/-! ### Invariant preservation through the handlers -/

theorem removeClient_invall {s : PathState} (c : Nat) (h : InvAll s) :
    InvAll (removeClient s c).1 := rcExec_inv _ _ _ h

theorem removeClient_facts (s : PathState) (c : Nat) :
    RCFacts s (removeClient s c).1 := rcExec_facts _ _ _

theorem ssrLoop_invall : ∀ (keys : List Nat) (s : PathState), InvAll s →
    InvAll (ssrLoop s keys).1 := by
  intro keys
  induction keys with
  | nil => intro s h; exact h
  | cons k ks ih =>
    intro s h
    rw [ssrLoop]
    split
    · exact ih _ (removeClient_invall k h)
    · exact ih _ h

theorem dtLoop_invall : ∀ (keys : List Nat) (s : PathState), InvAll s →
    InvAll (dtLoop s keys).1 := by
  intro keys
  induction keys with
  | nil => intro s h; exact h
  | cons k ks ih =>
    intro s h
    rw [dtLoop]
    split
    · exact ih _ (removeClient_invall k h)
    · exact ih _ h

theorem onSourceSetReady_invall {s : PathState} (h : InvAll s)
    (hsdp : s.sourceSdp.isSome = true) : InvAll (onSourceSetReady s).1 := by
  unfold onSourceSetReady
  refine InvAll_schedules (ssrLoop_invall _ _ ?_)
  rcases h with h | h
  · left
    split <;> exact h
  · right
    split
    · exact ⟨h.nodup, h.pubSrc, h.srcClient, fun _ => hsdp, h.sdpPub,
        fun hf => by
          obtain ⟨e1, e2, e3, e4, _⟩ := h.tmr hf
          exact ⟨e1, e2, e3, e4, by intro he; cases he⟩⟩
    · exact ⟨h.nodup, h.pubSrc, h.srcClient, fun _ => hsdp, h.sdpPub,
        fun hf => by
          obtain ⟨e1, e2, e3, e4, _⟩ := h.tmr hf
          exact ⟨e1, e2, e3, e4, by intro he; cases he⟩⟩

theorem cancelIdleTimers_scts (s : PathState) :
    (cancelIdleTimers s).sourceCloseTimerStarted = false := by
  unfold cancelIdleTimers
  split_ifs with h1 h2 h3 <;> simp_all

theorem cancelIdleTimers_fields (s : PathState) :
    (cancelIdleTimers s).conf = s.conf ∧ (cancelIdleTimers s).name = s.name ∧
    (cancelIdleTimers s).clients = s.clients ∧
    (cancelIdleTimers s).source = s.source ∧
    (cancelIdleTimers s).sourceState = s.sourceState ∧
    (cancelIdleTimers s).sourceSdp = s.sourceSdp ∧
    (cancelIdleTimers s).onDemandCmd = s.onDemandCmd ∧
    (cancelIdleTimers s).panicked = s.panicked := by
  unfold cancelIdleTimers
  split_ifs <;> simp

theorem Inv_cancelIdleTimers {s : PathState} (h : Inv s) :
    Inv (cancelIdleTimers s) := by
  unfold cancelIdleTimers
  split_ifs with h1 h2 h3
  · exact ⟨h.nodup, h.pubSrc, h.srcClient, h.sdpReady, h.sdpPub, fun hf => by simp at hf⟩
  · exact ⟨h.nodup, h.pubSrc, h.srcClient, h.sdpReady, h.sdpPub, fun hf => by simp at hf⟩
  · exact ⟨h.nodup, h.pubSrc, h.srcClient, h.sdpReady, h.sdpPub,
      fun hf => h.tmr hf⟩
  · exact h

theorem describeStartSource_scts (s : PathState) :
    (describeStartSource s).sourceCloseTimerStarted = s.sourceCloseTimerStarted := by
  unfold describeStartSource
  split_ifs <;> rfl

theorem describeStartSource_fields (s : PathState) :
    (describeStartSource s).conf = s.conf ∧ (describeStartSource s).name = s.name ∧
    (describeStartSource s).clients = s.clients ∧
    (describeStartSource s).sourceSdp = s.sourceSdp ∧
    (describeStartSource s).onDemandCmd = s.onDemandCmd ∧
    (describeStartSource s).panicked = s.panicked := by
  unfold describeStartSource
  split_ifs <;> simp

theorem Inv_describeStartSource {s : PathState} (h : Inv s)
    (hflag : s.sourceCloseTimerStarted = false) : Inv (describeStartSource s) := by
  unfold describeStartSource
  split_ifs with h1 h2 h3
  all_goals try exact h
  all_goals {
    have hsrc : s.source = none := by simpa using h2
    refine ⟨h.nodup, ?_, ?_, ?_, h.sdpPub, fun hf => absurd hf (by simp [hflag])⟩
    · intro x st hm hpub
      have h5 := h.pubSrc x st hm hpub
      rw [hsrc] at h5
      cases h5
    · intro x hx
      simp at hx
    · first
      | exact h.sdpReady
      | (intro he; simp at he)
  }

theorem describeStartCmd_scts (s : PathState) :
    (describeStartCmd s).sourceCloseTimerStarted = s.sourceCloseTimerStarted := by
  unfold describeStartCmd
  split_ifs <;> rfl

theorem describeStartCmd_fields (s : PathState) :
    (describeStartCmd s).conf = s.conf ∧ (describeStartCmd s).name = s.name ∧
    (describeStartCmd s).clients = s.clients ∧
    (describeStartCmd s).source = s.source ∧
    (describeStartCmd s).sourceSdp = s.sourceSdp ∧
    (describeStartCmd s).panicked = s.panicked := by
  unfold describeStartCmd
  split_ifs <;> simp

theorem Inv_describeStartCmd {s : PathState} (h : Inv s)
    (hflag : s.sourceCloseTimerStarted = false) : Inv (describeStartCmd s) := by
  unfold describeStartCmd
  split_ifs with h1 h2 h3
  all_goals try exact h
  all_goals {
    refine ⟨h.nodup, h.pubSrc, h.srcClient, ?_, h.sdpPub,
      fun hf => absurd hf (by simp [hflag])⟩
    first
    | exact h.sdpReady
    | (intro he; simp at he)
  }

theorem describePreamble_scts (s : PathState) :
    (describePreamble s).sourceCloseTimerStarted = false := by
  unfold describePreamble
  rw [describeStartCmd_scts, describeStartSource_scts, cancelIdleTimers_scts]

theorem describePreamble_clients (s : PathState) :
    (describePreamble s).clients = s.clients := by
  unfold describePreamble
  rw [(describeStartCmd_fields _).2.2.1, (describeStartSource_fields _).2.2.1,
    (cancelIdleTimers_fields _).2.2.1]

theorem describePreamble_panicked (s : PathState) :
    (describePreamble s).panicked = s.panicked := by
  unfold describePreamble
  rw [(describeStartCmd_fields _).2.2.2.2.2, (describeStartSource_fields _).2.2.2.2.2,
    (cancelIdleTimers_fields _).2.2.2.2.2.2.2]

theorem describePreamble_name (s : PathState) :
    (describePreamble s).name = s.name := by
  unfold describePreamble
  rw [(describeStartCmd_fields _).2.1, (describeStartSource_fields _).2.1,
    (cancelIdleTimers_fields _).2.1]

theorem Inv_describePreamble {s : PathState} (h : Inv s) : Inv (describePreamble s) :=
  Inv_describeStartCmd
    (Inv_describeStartSource (Inv_cancelIdleTimers h) (cancelIdleTimers_scts s))
    ((describeStartSource_scts _).trans (cancelIdleTimers_scts s))

theorem nodup_append_fresh {l : List (Nat × ClientState)} {c : Nat} {st : ClientState}
    (hnd : (l.map Prod.fst).Nodup) (hc : c ∉ l.map Prod.fst) :
    ((l ++ [(c, st)]).map Prod.fst).Nodup := by
  rw [List.map_append]
  simp only [List.map_cons, List.map_nil]
  rw [List.nodup_append]
  refine ⟨hnd, List.nodup_singleton c, ?_⟩
  intro a ha hb
  simp at hb
  exact hc (hb ▸ ha)

theorem InvAll_addClient {s : PathState} {c : Nat} {st : ClientState}
    (h : InvAll s) (hflag : s.sourceCloseTimerStarted = false) (hpub : ¬ isPub st) :
    InvAll (addClient s c st) := by
  unfold addClient
  split
  · exact Or.inl rfl
  · next hlk =>
    rcases h with h | h
    · exact Or.inl h
    · right
      have hc : c ∉ s.clients.map Prod.fst := by
        rw [← lookup_none_iff]
        simpa using hlk
      refine ⟨nodup_append_fresh h.nodup hc, ?_, h.srcClient, h.sdpReady, ?_,
        fun hf => absurd hf (by simp [hflag])⟩
      · intro x st2 hm hp2
        rcases List.mem_append.1 hm with h1 | h1
        · exact h.pubSrc x st2 h1 hp2
        · simp at h1
          rw [h1.2] at hp2
          exact absurd hp2 hpub
      · intro x st2 hm hp2
        rcases List.mem_append.1 hm with h1 | h1
        · exact h.sdpPub x st2 h1 hp2
        · simp at h1
          rw [h1.2] at hp2
          exact absurd hp2 hpub

theorem Inv_erase {s : PathState} (c : Nat) (h : Inv s) :
    Inv { s with clients := eraseClient s.clients c } := by
  refine ⟨nodup_eraseClient h.nodup, ?_, h.srcClient, h.sdpReady, ?_, ?_⟩
  · intro x st hm hp
    exact h.pubSrc x st (mem_eraseClient hm) hp
  · intro x st hm hp
    exact h.sdpPub x st (mem_eraseClient hm) hp
  · intro hf
    obtain ⟨e1, e2, e3, e4, e5⟩ := h.tmr hf
    refine ⟨e1, e2, e3, ?_, e5⟩
    exact hasClients_false_mono (fun x st hm => Or.inl (mem_eraseClient hm)) e4

theorem onClientDescribe_invall {s : PathState} (c : Nat) (h : InvAll s) :
    InvAll (onClientDescribe s c).1 := by
  simp only [onClientDescribe]
  have hpre : InvAll (describePreamble s) := by
    rcases h with h | h
    · exact Or.inl ((describePreamble_panicked s).trans h)
    · exact Or.inr (Inv_describePreamble h)
  have hflag := describePreamble_scts s
  split
  · exact removeClient_invall c (InvAll_addClient hpre hflag (by simp [isPub]))
  · split
    · exact removeClient_invall c (InvAll_addClient hpre hflag (by simp [isPub]))
    · exact InvAll_addClient hpre hflag (by simp [isPub])
    · exact removeClient_invall c (InvAll_addClient hpre hflag (by simp [isPub]))

theorem cancelIdleTimers_invall {s : PathState} (h : InvAll s) :
    InvAll (cancelIdleTimers s) := by
  rcases h with h | h
  · exact Or.inl (((cancelIdleTimers_fields s).2.2.2.2.2.2.2).trans h)
  · exact Or.inr (Inv_cancelIdleTimers h)

theorem onClientSetupPlay_invall {s : PathState} (c : Nat) (trackId : Int)
    (h : InvAll s) : InvAll (onClientSetupPlay s c trackId).1 := by
  unfold onClientSetupPlay
  split
  · exact h
  · split
    · exact h
    · split
      · exact h
      · exact InvAll_addClient (cancelIdleTimers_invall h) (cancelIdleTimers_scts s)
          (by simp [isPub])


theorem onClientPlay_invall {s : PathState} (c : Nat) (h : InvAll s) :
    InvAll (onClientPlay s c) := by
  unfold onClientPlay
  rcases hlk : lookupClient s.clients c with _ | st
  · exact h
  · dsimp only
    split
    · exact h
    · next hpp =>
      rcases h with h | h
      · exact Or.inl h
      · right
        rw [not_not] at hpp
        subst hpp
        have hmem : (c, ClientState.prePlay) ∈ s.clients := lookup_mem hlk
        refine ⟨nodup_setClient h.nodup, ?_, h.srcClient, h.sdpReady, ?_, ?_⟩
        · intro x st2 hm hp2
          rcases mem_setClient_weak hm with h1 | h1
          · exact h.pubSrc x st2 h1 hp2
          · have hst2 : st2 = ClientState.play := congrArg Prod.snd h1
            rw [hst2] at hp2
            rcases hp2 with h2 | h2 <;> simp at h2
        · intro x st2 hm hp2
          rcases mem_setClient_weak hm with h1 | h1
          · exact h.sdpPub x st2 h1 hp2
          · have hst2 : st2 = ClientState.play := congrArg Prod.snd h1
            rw [hst2] at hp2
            rcases hp2 with h2 | h2 <;> simp at h2
        · intro hf
          obtain ⟨_, _, _, e4, _⟩ := h.tmr hf
          rw [hasClients_false_iff] at e4
          have := e4 _ hmem
          simp at this

theorem onClientAnnounce_invall {s : PathState} (c : Nat) (tracks : Tracks)
    (h : InvAll s) : InvAll (onClientAnnounce s c tracks).1 := by
  unfold onClientAnnounce
  split
  · exact h
  · split
    · exact h
    · next hlk hpubcond =>
      rcases h with h | h
      · left
        unfold addClient
        split <;> simp [h]
      · push_neg at hpubcond
        obtain ⟨hsrc, hext⟩ := hpubcond
        have hlk2 : (lookupClient s.clients c).isSome = false := by simpa using hlk
        have hcnotin : c ∉ s.clients.map Prod.fst := by
          rw [← lookup_none_iff]
          exact Option.not_isSome_iff_eq_none.1 (by simp [hlk2])
        right
        have haddeq : addClient s c ClientState.preRecord =
            { s with clients := s.clients ++ [(c, ClientState.preRecord)] } := by
          unfold addClient
          rw [if_neg (by simp [hlk2])]
        rw [haddeq]
        refine ⟨nodup_append_fresh h.nodup hcnotin, ?_, ?_, fun _ => rfl, ?_, ?_⟩
        · intro x st2 hm hp2
          rcases List.mem_append.1 hm with h1 | h1
          · have := h.pubSrc x st2 h1 hp2
            rw [hsrc] at this
            cases this
          · simp at h1
            simp [h1.1]
        · intro x hx
          simpa using hext
        · intro x st2 hm hp2
          simp
        · intro hf
          obtain ⟨_, _, e3, _, _⟩ := h.tmr hf
          exact absurd hsrc e3

theorem onClientRecord_invall {s : PathState} (c : Nat) (hp : s.panicked = false)
    (h : InvAll s) : InvAll (onClientRecord s c).1 := by
  unfold onClientRecord
  rcases hlk : lookupClient s.clients c with _ | st
  · exact h
  · dsimp only
    split
    · exact h
    · next hpr =>
      rw [not_not] at hpr
      subst hpr
      rcases h with h | h
      · exact absurd h (by simp [hp])
      · have hmem : (c, ClientState.preRecord) ∈ s.clients := lookup_mem hlk
        have hsdp : s.sourceSdp.isSome = true :=
          h.sdpPub c ClientState.preRecord hmem (Or.inl rfl)
        refine onSourceSetReady_invall ?_ hsdp
        right
        refine ⟨nodup_setClient h.nodup, ?_, h.srcClient, h.sdpReady, ?_, ?_⟩
        · intro x st2 hm hp2
          rcases mem_setClient_weak hm with h1 | h1
          · exact h.pubSrc x st2 h1 hp2
          · have hx : x = c := congrArg Prod.fst h1
            rw [hx]
            exact h.pubSrc c ClientState.preRecord hmem (Or.inl rfl)
        · intro x st2 hm hp2
          exact hsdp
        · intro hf
          obtain ⟨_, _, _, e4, _⟩ := h.tmr hf
          rw [hasClients_false_iff] at e4
          have := e4 _ hmem
          simp at this

/-! ### The invariant holds in every reachable state -/

theorem step_invall (s : PathState) (e : Event) (h : InvAll s) :
    InvAll (step s e).1 := by
  by_cases hp : s.panicked = true
  · have heq : step s e = (s, []) := by
      unfold step
      rw [if_pos hp]
    rw [heq]
    exact h
  · have hInv : Inv s := h.resolve_left hp
    cases e with
    | describeTimerFire =>
      unfold step
      rw [if_neg hp]
      dsimp only
      split
      · unfold onDescribeTimer
        refine InvAll_schedules ?_
        have h2 : InvAll (dtLoop { s with describeTimerArmed := false }
            ({ s with describeTimerArmed := false }.clients.map Prod.fst)).1 :=
          dtLoop_invall _ _ (Or.inr ⟨hInv.nodup, hInv.pubSrc, hInv.srcClient,
            hInv.sdpReady, hInv.sdpPub, fun hf => hInv.tmr hf⟩)
        rcases h2 with h2 | h2
        · exact Or.inl h2
        · exact Or.inr (Inv_notReady h2)
      · exact h
    | sourceCloseTimerFire =>
      unfold step
      rw [if_neg hp]
      dsimp only
      split
      · rcases hsv : s.source with _ | sv
        · dsimp only
          exact Or.inl rfl
        · cases sv with
          | client c =>
            dsimp only
            exact Or.inl rfl
          | external =>
            dsimp only
            refine Or.inr (Inv_scheduleClose ?_)
            refine ⟨hInv.nodup, ?_, ?_, hInv.sdpReady, hInv.sdpPub,
              fun hf => absurd hf (by simp)⟩
            · intro x st hm hp2
              have h3 := hInv.pubSrc x st hm hp2
              rw [hsv] at h3
              cases h3
            · intro x hx
              simp at hx
          | redirect =>
            dsimp only
            exact Or.inl rfl
      · exact h
    | runOnDemandCloseTimerFire =>
      unfold step
      rw [if_neg hp]
      dsimp only
      split
      · refine Or.inr (Inv_scheduleClose ?_)
        exact ⟨hInv.nodup, hInv.pubSrc, hInv.srcClient, hInv.sdpReady, hInv.sdpPub,
          fun hf => hInv.tmr hf⟩
      · exact h
    | sourceSetReady tracks =>
      unfold step
      rw [if_neg hp]
      dsimp only
      split
      · refine onSourceSetReady_invall (Or.inr ?_) rfl
        exact ⟨hInv.nodup, hInv.pubSrc, hInv.srcClient, fun _ => rfl, fun _ _ _ _ => rfl,
          fun hf => hInv.tmr hf⟩
      · exact h
    | sourceSetNotReady =>
      unfold step
      rw [if_neg hp]
      dsimp only
      split
      · refine rcExec_inv _ _ _ (Or.inr ?_)
        exact ⟨hInv.nodup, hInv.pubSrc, hInv.srcClient, hInv.sdpReady, hInv.sdpPub,
          fun hf => hInv.tmr hf⟩
      · exact h
    | clientDescribe c =>
      unfold step
      rw [if_neg hp]
      dsimp only
      split
      · exact h
      · exact onClientDescribe_invall c h
    | clientSetupPlay c trackId =>
      unfold step
      rw [if_neg hp]
      dsimp only
      exact onClientSetupPlay_invall c trackId h
    | clientPlay c =>
      unfold step
      rw [if_neg hp]
      dsimp only
      exact onClientPlay_invall c h
    | clientAnnounce c tracks =>
      unfold step
      rw [if_neg hp]
      dsimp only
      exact onClientAnnounce_invall c tracks h
    | clientRecord c =>
      unfold step
      rw [if_neg hp]
      dsimp only
      exact onClientRecord_invall c (by simpa using hp) h
    | clientRemove c =>
      unfold step
      rw [if_neg hp]
      dsimp only
      split
      · have h2 : InvAll (if ¬ (lookupClient s.clients c = some ClientState.preRemove)
            then removeClient s c else (s, [])).1 := by
          split
          · exact removeClient_invall c h
          · exact h
        rcases h2 with h2 | h2
        · exact Or.inl h2
        · exact Or.inr (Inv_erase c h2)
      · exact h

theorem initState_inv (conf : PathConf) (name : String) : Inv (initState conf name) := by
  refine ⟨by simp [initState], ?_, ?_, ?_, ?_, ?_⟩
  · intro x st hm
    simp [initState] at hm
  · intro x hx
    unfold initState at hx
    dsimp only at hx
    split_ifs at hx <;> simp at hx
  · intro he
    simp [initState] at he
  · intro x st hm
    simp [initState] at hm
  · intro hf
    simp [initState] at hf

theorem reachable_invall {s : PathState} (h : Reachable s) : InvAll s := by
  induction h with
  | init conf name => exact Or.inr (initState_inv conf name)
  | step s e _ ih => exact step_invall s e ih


/-! ### Claim theorems -/

/-- Claim C1 (counterexample): with a Ready publisher (client 1 announced and
recording), a fresh client 2 that issues Describe, then SetupPlay(track 0),
then Play, with no intervening ClientRemove, does NOT end as the claim
states: the describe left client 2 as `PreRemove` in the map, so SetupPlay
does not add it (while still acking) and Play is a no-op; the reader
counter is 0, not 1, client 2 is in `PreRemove`, not `Play`, and the
readers map is empty. -/
theorem claim_C1_counterexample :
    (runTrace ⟨SourceKind.record, false, false, false, ""⟩ "p"
      [Event.clientAnnounce 1 [7], Event.clientRecord 1, Event.clientDescribe 2,
       Event.clientSetupPlay 2 0, Event.clientPlay 2]).countReaders = 0 ∧
    lookupClient (runTrace ⟨SourceKind.record, false, false, false, ""⟩ "p"
      [Event.clientAnnounce 1 [7], Event.clientRecord 1, Event.clientDescribe 2,
       Event.clientSetupPlay 2 0, Event.clientPlay 2]).clients 2 =
      some ClientState.preRemove ∧
    (runTrace ⟨SourceKind.record, false, false, false, ""⟩ "p"
      [Event.clientAnnounce 1 [7], Event.clientRecord 1, Event.clientDescribe 2,
       Event.clientSetupPlay 2 0, Event.clientPlay 2]).readers = [] ∧
    ¬ ((runTrace ⟨SourceKind.record, false, false, false, ""⟩ "p"
        [Event.clientAnnounce 1 [7], Event.clientRecord 1, Event.clientDescribe 2,
         Event.clientSetupPlay 2 0, Event.clientPlay 2]).countReaders = 1 ∧
       lookupClient (runTrace ⟨SourceKind.record, false, false, false, ""⟩ "p"
        [Event.clientAnnounce 1 [7], Event.clientRecord 1, Event.clientDescribe 2,
         Event.clientSetupPlay 2 0, Event.clientPlay 2]).clients 2 =
        some ClientState.play ∧
       2 ∈ (runTrace ⟨SourceKind.record, false, false, false, ""⟩ "p"
        [Event.clientAnnounce 1 [7], Event.clientRecord 1, Event.clientDescribe 2,
         Event.clientSetupPlay 2 0, Event.clientPlay 2]).readers) := by
  decide

/-- Claim C1 (amended): the scenario holds once the client's ClientRemove
after the answered Describe is interposed (as the real client object does):
with a Ready publisher, client 2 issuing Describe, ClientRemove, then
SetupPlay(track 0), then Play ends with the reader counter at 1, client 2
in state `Play`, and client 2 in the readers map. -/
theorem claim_C1_amended :
    (runTrace ⟨SourceKind.record, false, false, false, ""⟩ "p"
      [Event.clientAnnounce 1 [7], Event.clientRecord 1, Event.clientDescribe 2,
       Event.clientRemove 2, Event.clientSetupPlay 2 0, Event.clientPlay 2]).countReaders
      = 1 ∧
    lookupClient (runTrace ⟨SourceKind.record, false, false, false, ""⟩ "p"
      [Event.clientAnnounce 1 [7], Event.clientRecord 1, Event.clientDescribe 2,
       Event.clientRemove 2, Event.clientSetupPlay 2 0, Event.clientPlay 2]).clients 2 =
      some ClientState.play ∧
    2 ∈ (runTrace ⟨SourceKind.record, false, false, false, ""⟩ "p"
      [Event.clientAnnounce 1 [7], Event.clientRecord 1, Event.clientDescribe 2,
       Event.clientRemove 2, Event.clientSetupPlay 2 0, Event.clientPlay 2]).readers := by
  decide

/-- Claim C2 (code bug): the `panic("not possible")` branch of
`onSourceSetNotReady` IS reachable, contradicting the claim (and the
assertion in the code).  On a path with `RunOnDemand` configured: client 1
announces and records (source Ready); client 2 describes, which starts the
on-demand command and - although a publisher is Ready - overwrites
`sourceState` to `WaitingDescribe` and parks client 2 there; client 1 then
disconnects, and removing the `Record` client runs `onSourceSetNotReady`
with client 2 still in `WaitingDescribe`: the fatal branch fires.  The
intermediate state (after the describe) and the panic are both checked. -/
theorem claim_C2_code_bug :
    lookupClient (runTrace ⟨SourceKind.record, false, true, false, ""⟩ "p"
      [Event.clientAnnounce 1 [7], Event.clientRecord 1,
       Event.clientDescribe 2]).clients 2 = some ClientState.waitingDescribe ∧
    (runTrace ⟨SourceKind.record, false, true, false, ""⟩ "p"
      [Event.clientAnnounce 1 [7], Event.clientRecord 1,
       Event.clientDescribe 2]).sourceState = SourceState.waitingDescribe ∧
    (runTrace ⟨SourceKind.record, false, true, false, ""⟩ "p"
      [Event.clientAnnounce 1 [7], Event.clientRecord 1, Event.clientDescribe 2,
       Event.clientRemove 1]).panicked = true := by
  decide

/-- Claim C3 (counterexample): announcing an empty track list and recording
yields a reachable state with `source_state = Ready` and
`source_track_count = 0`, refuting `Ready ⇒ track_count > 0`. -/
theorem claim_C3_counterexample :
    Reachable (step (step (initState ⟨SourceKind.record, false, false, false, ""⟩ "p")
        (Event.clientAnnounce 1 [])).1 (Event.clientRecord 1)).1 ∧
    (step (step (initState ⟨SourceKind.record, false, false, false, ""⟩ "p")
        (Event.clientAnnounce 1 [])).1 (Event.clientRecord 1)).1.sourceState =
      SourceState.ready ∧
    ¬ (0 < (step (step (initState ⟨SourceKind.record, false, false, false, ""⟩ "p")
        (Event.clientAnnounce 1 [])).1 (Event.clientRecord 1)).1.sourceTrackCount) := by
  refine ⟨Reachable.step _ _ (Reachable.step _ _ (Reachable.init _ _)), ?_, ?_⟩ <;> decide

/-- Claim C3 (amended): in every reachable state of the live (non-crashed)
actor, `source_state = Ready` implies the sdp is stored; the track count,
however, equals the announced or delivered track-list length and is 0 when
that list is empty. -/
theorem claim_C3_amended {s : PathState} (h : Reachable s) (hp : s.panicked = false)
    (hr : s.sourceState = SourceState.ready) : s.sourceSdp.isSome = true := by
  have h2 := (reachable_invall h).resolve_left (by simp [hp])
  exact h2.sdpReady hr

/-- Witness for claim C3 (amended) at the publisher scenario. -/
theorem claim_C3_witness :
    (step (step (initState ⟨SourceKind.record, false, false, false, ""⟩ "p")
        (Event.clientAnnounce 1 [7])).1 (Event.clientRecord 1)).1.sourceSdp.isSome
      = true :=
  claim_C3_amended (Reachable.step _ _ (Reachable.step _ _ (Reachable.init _ _)))
    (by decide) (by decide)

/-- Claim C4: in every reachable state of the live actor, a client in
`PreRecord` or `Record` is the stored source, and hence at most one client
is in those states. -/
theorem claim_C4 {s : PathState} (h : Reachable s) (hp : s.panicked = false) :
    (∀ x st, (x, st) ∈ s.clients →
      (st = ClientState.preRecord ∨ st = ClientState.record) →
      s.source = some (SourceVal.client x)) ∧
    (∀ x st1 y st2, (x, st1) ∈ s.clients → (y, st2) ∈ s.clients →
      (st1 = ClientState.preRecord ∨ st1 = ClientState.record) →
      (st2 = ClientState.preRecord ∨ st2 = ClientState.record) → x = y) := by
  have h2 := (reachable_invall h).resolve_left (by simp [hp])
  refine ⟨fun x st hm hpub => h2.pubSrc x st hm hpub, ?_⟩
  intro x st1 y st2 hm1 hm2 hp1 hp2
  have e1 := h2.pubSrc x st1 hm1 hp1
  have e2 := h2.pubSrc y st2 hm2 hp2
  rw [e1] at e2
  simpa using e2

/-- Witness for claim C4 at the publisher scenario. -/
theorem claim_C4_witness :
    (step (step (initState ⟨SourceKind.record, false, false, false, ""⟩ "p")
        (Event.clientAnnounce 1 [7])).1 (Event.clientRecord 1)).1.source =
      some (SourceVal.client 1) :=
  (claim_C4 (Reachable.step _ _ (Reachable.step _ _ (Reachable.init _ _)))
    (by decide)).1 1 ClientState.record (by decide) (Or.inr rfl)

/-- Claim C9: in every reachable state of the live actor, the source-close
timer is armed only when the path has an external source configured with
`SourceOnDemand`, the source exists, no client outside `PreRemove` is
attached, and the source state is not `WaitingDescribe` (each operation that
invalidates this precondition disarms the timer, so the invariant holds
after every step). -/
theorem claim_C9 {s : PathState} (h : Reachable s) (hp : s.panicked = false)
    (hon : s.sourceCloseTimerStarted = true) :
    hasExternalSource s.conf = true ∧ s.conf.sourceOnDemand = true ∧
    s.source ≠ none ∧ hasClients s = false ∧
    s.sourceState ≠ SourceState.waitingDescribe :=
  ((reachable_invall h).resolve_left (by simp [hp])).tmr hon

/-- Witness for claim C9: an on-demand external path after a describe and
the readiness signal has the source-close timer armed, and the invariant
conditions hold there. -/
theorem claim_C9_witness :
    hasExternalSource (step (step (initState ⟨SourceKind.rtsp, true, false, false, ""⟩ "p")
        (Event.clientDescribe 2)).1 (Event.sourceSetReady [5])).1.conf = true ∧
    (step (step (initState ⟨SourceKind.rtsp, true, false, false, ""⟩ "p")
        (Event.clientDescribe 2)).1
          (Event.sourceSetReady [5])).1.conf.sourceOnDemand = true ∧
    (step (step (initState ⟨SourceKind.rtsp, true, false, false, ""⟩ "p")
        (Event.clientDescribe 2)).1 (Event.sourceSetReady [5])).1.source ≠ none ∧
    hasClients (step (step (initState ⟨SourceKind.rtsp, true, false, false, ""⟩ "p")
        (Event.clientDescribe 2)).1 (Event.sourceSetReady [5])).1 = false ∧
    (step (step (initState ⟨SourceKind.rtsp, true, false, false, ""⟩ "p")
        (Event.clientDescribe 2)).1 (Event.sourceSetReady [5])).1.sourceState ≠
      SourceState.waitingDescribe :=
  claim_C9 (Reachable.step _ _ (Reachable.step _ _ (Reachable.init _ _)))
    (by decide) (by decide)

/-- Claim C5: Announce returns `already subscribed` for an attached client;
for a fresh client it returns `someone is already publishing` exactly when a
source is present or an external source is configured; on success the
client is added as `PreRecord` and recorded as source, the track count and
sdp are stored, and the source state is untouched (still `NotReady`
whenever it was `NotReady`: readiness only follows a later Record). -/
theorem claim_C5 (s : PathState) (c : Nat) (tracks : Tracks) :
    ((lookupClient s.clients c).isSome = true →
      onClientAnnounce s c tracks = (s, some PathErr.alreadySubscribed)) ∧
    (lookupClient s.clients c = none →
      ((onClientAnnounce s c tracks).2 = some (PathErr.alreadyPublishing s.name) ↔
        (¬ (s.source = none) ∨ hasExternalSource s.conf = true))) ∧
    (lookupClient s.clients c = none → s.source = none →
      hasExternalSource s.conf = false →
      (onClientAnnounce s c tracks).2 = none ∧
      (onClientAnnounce s c tracks).1.clients =
        s.clients ++ [(c, ClientState.preRecord)] ∧
      (onClientAnnounce s c tracks).1.source = some (SourceVal.client c) ∧
      (onClientAnnounce s c tracks).1.sourceTrackCount = tracks.length ∧
      (onClientAnnounce s c tracks).1.sourceSdp = some (tracksWrite tracks) ∧
      (onClientAnnounce s c tracks).1.sourceState = s.sourceState ∧
      (s.sourceState = SourceState.notReady →
        (onClientAnnounce s c tracks).1.sourceState = SourceState.notReady)) := by
  refine ⟨?_, ?_, ?_⟩
  · intro h
    unfold onClientAnnounce
    rw [if_pos h]
  · intro h
    unfold onClientAnnounce
    rw [if_neg (by simp [h])]
    constructor
    · intro h2
      by_cases hcond : ¬ (s.source = none) ∨ hasExternalSource s.conf = true
      · exact hcond
      · rw [if_neg hcond] at h2
        simp at h2
    · intro h2
      rw [if_pos h2]
  · intro h1 h2 h3
    unfold onClientAnnounce
    rw [if_neg (by simp [h1]), if_neg (by simp [h2, h3])]
    have haddeq : addClient s c ClientState.preRecord =
        { s with clients := s.clients ++ [(c, ClientState.preRecord)] } := by
      unfold addClient
      rw [if_neg (by simp [h1])]
    rw [haddeq]
    exact ⟨rfl, rfl, rfl, rfl, rfl, rfl, fun h4 => h4⟩

/-- Witness for claim C5: on a fresh record path, announce by client 1
succeeds and installs it as source; afterwards a second announce by
client 1 fails with `already subscribed` and an announce by client 2 fails
with `someone is already publishing`. -/
theorem claim_C5_witness :
    (onClientAnnounce (initState ⟨SourceKind.record, false, false, false, ""⟩ "p")
      1 [7]).2 = none ∧
    (onClientAnnounce (initState ⟨SourceKind.record, false, false, false, ""⟩ "p")
      1 [7]).1.source = some (SourceVal.client 1) ∧
    onClientAnnounce (runTrace ⟨SourceKind.record, false, false, false, ""⟩ "p"
        [Event.clientAnnounce 1 [7]]) 1 [9] =
      (runTrace ⟨SourceKind.record, false, false, false, ""⟩ "p"
        [Event.clientAnnounce 1 [7]], some PathErr.alreadySubscribed) ∧
    (onClientAnnounce (runTrace ⟨SourceKind.record, false, false, false, ""⟩ "p"
        [Event.clientAnnounce 1 [7]]) 2 [9]).2 =
      some (PathErr.alreadyPublishing "p") :=
  ⟨((claim_C5 (initState ⟨SourceKind.record, false, false, false, ""⟩ "p") 1 [7]).2.2
      (by decide) (by decide) (by decide)).1,
   ((claim_C5 (initState ⟨SourceKind.record, false, false, false, ""⟩ "p") 1 [7]).2.2
      (by decide) (by decide) (by decide)).2.2.1,
   (claim_C5 (runTrace ⟨SourceKind.record, false, false, false, ""⟩ "p"
      [Event.clientAnnounce 1 [7]]) 1 [9]).1 (by decide),
   by
    have h := ((claim_C5 (runTrace ⟨SourceKind.record, false, false, false, ""⟩ "p"
        [Event.clientAnnounce 1 [7]]) 2 [9]).2.1 (by decide)).2 (Or.inl (by decide))
    simpa using h⟩

/-- Claim C6: SetupPlay fails with `no one is publishing` whenever the
source state is not `Ready`, and with `track N does not exist` whenever the
requested index is at least the track count; in both cases the returned
state is exactly the input state (the client is not added, nothing
changes). -/
theorem claim_C6 (s : PathState) (c : Nat) (trackId : Int) :
    (¬ (s.sourceState = SourceState.ready) →
      onClientSetupPlay s c trackId = (s, some (PathErr.noOnePublishing s.name))) ∧
    (s.sourceState = SourceState.ready → (s.sourceTrackCount : Int) ≤ trackId →
      onClientSetupPlay s c trackId = (s, some (PathErr.trackDoesNotExist trackId))) := by
  constructor
  · intro h
    unfold onClientSetupPlay
    rw [if_pos h]
  · intro h1 h2
    unfold onClientSetupPlay
    rw [if_neg (not_not_intro h1), if_pos h2]

/-- Witness for claim C6: on a fresh path (not ready) setup fails with
`no one is publishing`; on a ready path with one track, `SetupPlay(5)`
fails with `track 5 does not exist` and the state is unchanged. -/
theorem claim_C6_witness :
    onClientSetupPlay (initState ⟨SourceKind.record, false, false, false, ""⟩ "p") 2 0 =
      (initState ⟨SourceKind.record, false, false, false, ""⟩ "p",
       some (PathErr.noOnePublishing "p")) ∧
    onClientSetupPlay (runTrace ⟨SourceKind.record, false, false, false, ""⟩ "p"
        [Event.clientAnnounce 1 [7], Event.clientRecord 1]) 2 5 =
      (runTrace ⟨SourceKind.record, false, false, false, ""⟩ "p"
        [Event.clientAnnounce 1 [7], Event.clientRecord 1],
       some (PathErr.trackDoesNotExist 5)) :=
  ⟨by
    have h := (claim_C6 (initState ⟨SourceKind.record, false, false, false, ""⟩ "p")
      2 0).1 (by decide)
    simpa using h,
   (claim_C6 (runTrace ⟨SourceKind.record, false, false, false, ""⟩ "p"
      [Event.clientAnnounce 1 [7], Event.clientRecord 1]) 2 5).2 (by decide) (by decide)⟩

/-- Computation of `removeClient` for a client that is not in `Play` or
`Record` and is not the source: the entry is set to `PreRemove` and the
schedule checks run; nothing else happens. -/
theorem removeClient_simple {s : PathState} {c : Nat}
    (hp : s.panicked = false)
    (hst : lookupClient s.clients c = some ClientState.preRemove ∨
           lookupClient s.clients c = some ClientState.waitingDescribe ∨
           lookupClient s.clients c = some ClientState.prePlay ∨
           lookupClient s.clients c = some ClientState.preRecord)
    (hsrc : ¬ (s.source = some (SourceVal.client c))) :
    removeClient s c =
      (schedules { s with clients := setClient s.clients c ClientState.preRemove }, []) := by
  unfold removeClient
  obtain ⟨f, hf⟩ : ∃ f, rcFuel s = f + 1 :=
    ⟨4 * s.clients.length + 7, by simp [rcFuel]⟩
  rw [hf, rcExec.eq_def]
  dsimp only
  rw [if_neg (by simp [hp])]
  rcases hst with h | h | h | h <;>
    rw [h] <;>
    simp only [Option.getD_some] <;>
    rw [if_neg (by simp [hsrc])] <;>
    rfl

/-- The second preamble block preserves the source or installs the
external puller when none was present. -/
theorem describeStartSource_source (s : PathState) :
    (describeStartSource s).source = s.source ∨
    ((describeStartSource s).source = some SourceVal.external ∧ s.source = none) := by
  unfold describeStartSource
  split_ifs with h1 h2 h3
  · right; exact ⟨rfl, by simpa using h2⟩
  · right; exact ⟨rfl, by simpa using h2⟩
  · left; rfl
  · left; rfl

/-- The describe preamble preserves the source or installs the external
puller when none was present. -/
theorem describePreamble_source (s : PathState) :
    (describePreamble s).source = s.source ∨
    ((describePreamble s).source = some SourceVal.external ∧ s.source = none) := by
  unfold describePreamble
  rw [(describeStartCmd_fields _).2.2.2.1]
  rcases describeStartSource_source (cancelIdleTimers s) with h | h
  · rw [h, (cancelIdleTimers_fields s).2.2.2.1]
    left; rfl
  · right
    exact ⟨h.1, ((cancelIdleTimers_fields s).2.2.2.1) ▸ h.2⟩

/-- Computation of `onClientDescribe` for a fresh non-source client whose
describe is answered immediately (redirect source, or source state not
`WaitingDescribe` after the preamble): the client ends attached in
`PreRemove` and the actor has not crashed. -/
theorem onClientDescribe_immediate {s : PathState} {c : Nat}
    (hp : s.panicked = false) (hlk : lookupClient s.clients c = none)
    (hsrc : ¬ (s.source = some (SourceVal.client c)))
    (himm : (describePreamble s).source = some SourceVal.redirect ∨
            ¬ ((describePreamble s).sourceState = SourceState.waitingDescribe)) :
    lookupClient (onClientDescribe s c).1.clients c = some ClientState.preRemove ∧
    (onClientDescribe s c).1.panicked = false := by
  have hcl := describePreamble_clients s
  have hpan := (describePreamble_panicked s).trans hp
  have hsrc1 : ¬ ((describePreamble s).source = some (SourceVal.client c)) := by
    rcases describePreamble_source s with h1 | h1
    · rw [h1]; exact hsrc
    · rw [h1.1]; simp
  have hlk1 : lookupClient (describePreamble s).clients c = none := by
    rw [hcl]; exact hlk
  have haddeq : addClient (describePreamble s) c ClientState.preRemove =
      { describePreamble s with
        clients := (describePreamble s).clients ++ [(c, ClientState.preRemove)] } := by
    unfold addClient
    rw [if_neg (by simp [hlk1])]
  have hlk2 : lookupClient ((describePreamble s).clients ++
      [(c, ClientState.preRemove)]) c = some ClientState.preRemove := by
    rw [lookup_append, hlk1]
    simp [lookupClient]
  have hrem : removeClient
      { describePreamble s with
        clients := (describePreamble s).clients ++ [(c, ClientState.preRemove)] } c =
      (schedules { describePreamble s with
        clients := setClient ((describePreamble s).clients ++ [(c, ClientState.preRemove)])
          c ClientState.preRemove }, []) :=
    removeClient_simple hpan (Or.inl hlk2) hsrc1
  have hfin1 : lookupClient (schedules { describePreamble s with
      clients := setClient ((describePreamble s).clients ++ [(c, ClientState.preRemove)])
        c ClientState.preRemove }).clients c = some ClientState.preRemove := by
    rw [(schedules_fields _).2.2.1]
    exact lookup_setClient_self _ _ _
  have hfin2 : (schedules { describePreamble s with
      clients := setClient ((describePreamble s).clients ++ [(c, ClientState.preRemove)])
        c ClientState.preRemove }).panicked = false := by
    rw [(schedules_fields _).2.2.2.2.2.2.2.2.2.2.1]
    exact hpan
  unfold onClientDescribe
  by_cases hred : ((describePreamble s).source == some SourceVal.redirect) = true
  · rw [if_pos hred]
    dsimp only
    rw [haddeq, hrem]
    exact ⟨hfin1, hfin2⟩
  · rw [if_neg hred]
    have himm2 : ¬ ((describePreamble s).sourceState = SourceState.waitingDescribe) := by
      rcases himm with h1 | h1
      · exact absurd (by simp [h1]) hred
      · exact h1
    rcases hss : (describePreamble s).sourceState with _ | _ | _
    · dsimp only
      rw [haddeq, hrem]
      exact ⟨hfin1, hfin2⟩
    · exact absurd hss himm2
    · dsimp only
      rw [haddeq, hrem]
      exact ⟨hfin1, hfin2⟩

/-- Claim C10: a Describe answered immediately (redirect source, Ready, or
NotReady) leaves the client attached as `PreRemove` until its ClientRemove
arrives; a second Describe by the same client before that is answered with
the `already subscribed` error, and an Announce by it fails the same way,
even though the first describe was already fully answered. -/
theorem claim_C10 (s : PathState) (c : Nat) (tracks : Tracks)
    (hp : s.panicked = false) (hlk : lookupClient s.clients c = none)
    (hsrc : ¬ (s.source = some (SourceVal.client c)))
    (himm : (describePreamble s).source = some SourceVal.redirect ∨
            ¬ ((describePreamble s).sourceState = SourceState.waitingDescribe)) :
    lookupClient (step s (Event.clientDescribe c)).1.clients c =
      some ClientState.preRemove ∧
    step (step s (Event.clientDescribe c)).1 (Event.clientDescribe c) =
      ((step s (Event.clientDescribe c)).1,
       [Out.describeRes c (some PathErr.alreadySubscribed)]) ∧
    onClientAnnounce (step s (Event.clientDescribe c)).1 c tracks =
      ((step s (Event.clientDescribe c)).1, some PathErr.alreadySubscribed) := by
  have hstep : step s (Event.clientDescribe c) =
      ((onClientDescribe s c).1, Out.describeRes c none :: (onClientDescribe s c).2) := by
    unfold step
    rw [if_neg (by simp [hp])]
    dsimp only
    rw [if_neg (by simp [hlk])]
  have himl := onClientDescribe_immediate hp hlk hsrc himm
  refine ⟨?_, ?_, ?_⟩
  · rw [hstep]
    exact himl.1
  · rw [hstep]
    unfold step
    rw [if_neg (by simp [himl.2])]
    dsimp only
    rw [if_pos (by simp [himl.1])]
  · rw [hstep]
    unfold onClientAnnounce
    rw [if_pos (by simp [himl.1])]

/-- Witness for claim C10 on a Ready publisher path: client 2's describe is
answered immediately, it stays attached in `PreRemove`, and both a second
describe and an announce before its ClientRemove fail with
`already subscribed`. -/
theorem claim_C10_witness :
    lookupClient (step (runTrace ⟨SourceKind.record, false, false, false, ""⟩ "p"
        [Event.clientAnnounce 1 [7], Event.clientRecord 1])
        (Event.clientDescribe 2)).1.clients 2 = some ClientState.preRemove ∧
    (step (step (runTrace ⟨SourceKind.record, false, false, false, ""⟩ "p"
        [Event.clientAnnounce 1 [7], Event.clientRecord 1])
        (Event.clientDescribe 2)).1 (Event.clientDescribe 2)).2 =
      [Out.describeRes 2 (some PathErr.alreadySubscribed)] ∧
    (onClientAnnounce (step (runTrace ⟨SourceKind.record, false, false, false, ""⟩ "p"
        [Event.clientAnnounce 1 [7], Event.clientRecord 1])
        (Event.clientDescribe 2)).1 2 [9]).2 = some PathErr.alreadySubscribed := by
  have h := claim_C10 (runTrace ⟨SourceKind.record, false, false, false, ""⟩ "p"
    [Event.clientAnnounce 1 [7], Event.clientRecord 1]) 2 [9]
    (by decide) (by decide) (by decide) (Or.inr (by decide))
  exact ⟨h.1, by rw [h.2.1], by rw [h.2.2]⟩


/-! ### The flush loops: every waiting client is evicted and answered once -/

theorem dtLoop_spec : ∀ (keys : List Nat) (s : PathState),
    (s.clients.map Prod.fst).Nodup → WaitSrcOk s → s.panicked = false → keys.Nodup →
    FlushSpec s keys
      (fun x => Out.describeData x none "" (some (PathErr.publisherTimedOut s.name)))
      (dtLoop s keys).1 (dtLoop s keys).2 := by
  intro keys
  induction keys with
  | nil =>
    intro s hnd hws hp _
    rw [dtLoop]
    exact ⟨hp, rfl, rfl, rfl, rfl, rfl, rfl, hnd, hws, by simp, fun x h => h,
      by simp, fun x _ => rfl, fun x st hm => Or.inl hm⟩
  | cons k ks ih =>
    intro s hnd hws hp hknd
    have hksnd : ks.Nodup := (List.nodup_cons.1 hknd).2
    have hknot : k ∉ ks := (List.nodup_cons.1 hknd).1
    rw [dtLoop]
    split
    · next hkw0 =>
      have hkw : lookupClient s.clients k = some ClientState.waitingDescribe := by
        simpa using hkw0
      have hrw : removeClient s k =
          (schedules { s with clients := setClient s.clients k ClientState.preRemove },
           []) :=
        removeClient_simple hp (Or.inr (Or.inl hkw)) (hws k hkw)
      rw [hrw]
      dsimp only
      have htc : (schedules { s with
          clients := setClient s.clients k ClientState.preRemove }).clients =
          setClient s.clients k ClientState.preRemove := (schedules_fields _).2.2.1
      have htpan : (schedules { s with
          clients := setClient s.clients k ClientState.preRemove }).panicked = false :=
        ((schedules_fields _).2.2.2.2.2.2.2.2.2.2.1).trans hp
      have htsrc : (schedules { s with
          clients := setClient s.clients k ClientState.preRemove }).source = s.source :=
        (schedules_fields _).2.2.2.1
      have htname : (schedules { s with
          clients := setClient s.clients k ClientState.preRemove }).name = s.name :=
        (schedules_fields _).2.1
      have hlk1 : ∀ x, x ≠ k → lookupClient (schedules { s with
          clients := setClient s.clients k ClientState.preRemove }).clients x =
          lookupClient s.clients x := by
        intro x hx
        rw [htc, lookup_setClient_ne _ _ hx]
      have hlkk : lookupClient (schedules { s with
          clients := setClient s.clients k ClientState.preRemove }).clients k =
          some ClientState.preRemove := by
        rw [htc]
        exact lookup_setClient_self _ _ _
      have hwst : WaitSrcOk (schedules { s with
          clients := setClient s.clients k ClientState.preRemove }) := by
        intro x hx
        rw [htsrc]
        by_cases hxk : x = k
        · subst hxk
          rw [hlkk] at hx
          cases hx
        · rw [hlk1 x hxk] at hx
          exact hws x hx
      have hndt : ((schedules { s with
          clients := setClient s.clients k ClientState.preRemove
          }).clients.map Prod.fst).Nodup := by
        rw [htc]
        exact nodup_setClient hnd
      have IH := ih (schedules { s with
        clients := setClient s.clients k ClientState.preRemove }) hndt hwst htpan hksnd
      constructor
      · exact IH.pan
      · exact IH.conf.trans ((schedules_fields _).1)
      · exact IH.name.trans htname
      · exact IH.src.trans htsrc
      · exact IH.sst.trans ((schedules_fields _).2.2.2.2.1)
      · exact IH.sdp.trans ((schedules_fields _).2.2.2.2.2.1)
      · exact IH.dta.trans ((schedules_fields _).2.2.2.2.2.2.2.2.1)
      · exact IH.nodup
      · exact IH.wsok
      · -- removed
        intro x hxmem hxw
        rcases List.mem_cons.1 hxmem with hxk | hxk
        · subst hxk
          exact IH.pstab x hlkk
        · have hxne : x ≠ k := fun he => hknot (he ▸ hxk)
          exact IH.removed x hxk (by rw [hlk1 x hxne]; exact hxw)
      · -- pstab
        intro x hx
        by_cases hxk : x = k
        · subst hxk
          exact IH.pstab x hlkk
        · exact IH.pstab x (by rw [hlk1 x hxk]; exact hx)
      · -- once
        intro x hxmem hxw
        rcases List.mem_cons.1 hxmem with hxk | hxk
        · subst hxk
          rw [List.count_append, List.count_append]
          have hz := IH.zero x (Or.inl hknot)
          rw [htname] at hz
          rw [hz]
          simp [htname]
        · have hxne : x ≠ k := fun he => hknot (he ▸ hxk)
          rw [List.count_append, List.count_append]
          have ho := IH.once x hxk (by rw [hlk1 x hxne]; exact hxw)
          rw [htname] at ho
          rw [ho]
          simp [hxne]
      · -- zero
        intro x hx
        rw [List.count_append, List.count_append]
        have hxcb : ∀ nm, Out.describeData x none ""
            (some (PathErr.publisherTimedOut s.name)) =
            Out.describeData k none "" (some (PathErr.publisherTimedOut nm)) → x = k := by
          intro nm he
          injection he
        rcases hx with hx | hx
        · have hxne : x ≠ k := fun he => hx (he ▸ List.mem_cons_self k ks)
          have hz := IH.zero x (Or.inl fun he => hx (List.mem_cons_of_mem _ he))
          rw [htname] at hz
          rw [hz]
          simp [hxne]
        · by_cases hxk : x = k
          · subst hxk
            exact absurd hkw hx
          · have hz := IH.zero x (Or.inr (by rw [hlk1 x hxk]; exact hx))
            rw [htname] at hz
            rw [hz]
            simp [hxk]
      · -- mem
        intro x st hm
        rcases IH.mem x st hm with h1 | h1
        · rw [htc] at h1
          rcases mem_setClient_weak h1 with h2 | h2
          · exact Or.inl h2
          · exact Or.inr (congrArg Prod.snd h2)
        · exact Or.inr h1
    · next hkw0 =>
      have hkw : ¬ (lookupClient s.clients k = some ClientState.waitingDescribe) := by
        simpa using hkw0
      have IH := ih s hnd hws hp hksnd
      constructor
      · exact IH.pan
      · exact IH.conf
      · exact IH.name
      · exact IH.src
      · exact IH.sst
      · exact IH.sdp
      · exact IH.dta
      · exact IH.nodup
      · exact IH.wsok
      · intro x hxmem hxw
        rcases List.mem_cons.1 hxmem with hxk | hxk
        · subst hxk
          exact absurd hxw hkw
        · exact IH.removed x hxk hxw
      · exact IH.pstab
      · intro x hxmem hxw
        rcases List.mem_cons.1 hxmem with hxk | hxk
        · subst hxk
          exact absurd hxw hkw
        · exact IH.once x hxk hxw
      · intro x hx
        rcases hx with hx | hx
        · exact IH.zero x (Or.inl fun he => hx (List.mem_cons_of_mem _ he))
        · exact IH.zero x (Or.inr hx)
      · exact IH.mem

theorem ssrLoop_spec : ∀ (keys : List Nat) (s : PathState),
    (s.clients.map Prod.fst).Nodup → WaitSrcOk s → s.panicked = false → keys.Nodup →
    FlushSpec s keys
      (fun x => Out.describeData x s.sourceSdp "" none)
      (ssrLoop s keys).1 (ssrLoop s keys).2 := by
  intro keys
  induction keys with
  | nil =>
    intro s hnd hws hp _
    rw [ssrLoop]
    exact ⟨hp, rfl, rfl, rfl, rfl, rfl, rfl, hnd, hws, by simp, fun x h => h,
      by simp, fun x _ => rfl, fun x st hm => Or.inl hm⟩
  | cons k ks ih =>
    intro s hnd hws hp hknd
    have hksnd : ks.Nodup := (List.nodup_cons.1 hknd).2
    have hknot : k ∉ ks := (List.nodup_cons.1 hknd).1
    rw [ssrLoop]
    split
    · next hkw0 =>
      have hkw : lookupClient s.clients k = some ClientState.waitingDescribe := by
        simpa using hkw0
      have hrw : removeClient s k =
          (schedules { s with clients := setClient s.clients k ClientState.preRemove },
           []) :=
        removeClient_simple hp (Or.inr (Or.inl hkw)) (hws k hkw)
      rw [hrw]
      dsimp only
      have htc : (schedules { s with
          clients := setClient s.clients k ClientState.preRemove }).clients =
          setClient s.clients k ClientState.preRemove := (schedules_fields _).2.2.1
      have htpan : (schedules { s with
          clients := setClient s.clients k ClientState.preRemove }).panicked = false :=
        ((schedules_fields _).2.2.2.2.2.2.2.2.2.2.1).trans hp
      have htsrc : (schedules { s with
          clients := setClient s.clients k ClientState.preRemove }).source = s.source :=
        (schedules_fields _).2.2.2.1
      have htsdp : (schedules { s with
          clients := setClient s.clients k ClientState.preRemove }).sourceSdp =
          s.sourceSdp := (schedules_fields _).2.2.2.2.2.1
      have hlk1 : ∀ x, x ≠ k → lookupClient (schedules { s with
          clients := setClient s.clients k ClientState.preRemove }).clients x =
          lookupClient s.clients x := by
        intro x hx
        rw [htc, lookup_setClient_ne _ _ hx]
      have hlkk : lookupClient (schedules { s with
          clients := setClient s.clients k ClientState.preRemove }).clients k =
          some ClientState.preRemove := by
        rw [htc]
        exact lookup_setClient_self _ _ _
      have hwst : WaitSrcOk (schedules { s with
          clients := setClient s.clients k ClientState.preRemove }) := by
        intro x hx
        rw [htsrc]
        by_cases hxk : x = k
        · subst hxk
          rw [hlkk] at hx
          cases hx
        · rw [hlk1 x hxk] at hx
          exact hws x hx
      have hndt : ((schedules { s with
          clients := setClient s.clients k ClientState.preRemove
          }).clients.map Prod.fst).Nodup := by
        rw [htc]
        exact nodup_setClient hnd
      have IH := ih (schedules { s with
        clients := setClient s.clients k ClientState.preRemove }) hndt hwst htpan hksnd
      constructor
      · exact IH.pan
      · exact IH.conf.trans ((schedules_fields _).1)
      · exact IH.name.trans ((schedules_fields _).2.1)
      · exact IH.src.trans htsrc
      · exact IH.sst.trans ((schedules_fields _).2.2.2.2.1)
      · exact IH.sdp.trans ((schedules_fields _).2.2.2.2.2.1)
      · exact IH.dta.trans ((schedules_fields _).2.2.2.2.2.2.2.2.1)
      · exact IH.nodup
      · exact IH.wsok
      · -- removed
        intro x hxmem hxw
        rcases List.mem_cons.1 hxmem with hxk | hxk
        · subst hxk
          exact IH.pstab x hlkk
        · have hxne : x ≠ k := fun he => hknot (he ▸ hxk)
          exact IH.removed x hxk (by rw [hlk1 x hxne]; exact hxw)
      · -- pstab
        intro x hx
        by_cases hxk : x = k
        · subst hxk
          exact IH.pstab x hlkk
        · exact IH.pstab x (by rw [hlk1 x hxk]; exact hx)
      · -- once
        intro x hxmem hxw
        rcases List.mem_cons.1 hxmem with hxk | hxk
        · subst hxk
          rw [List.count_append, List.count_append]
          have hz := IH.zero x (Or.inl hknot)
          rw [htsdp] at hz
          rw [hz]
          simp [htsdp]
        · have hxne : x ≠ k := fun he => hknot (he ▸ hxk)
          rw [List.count_append, List.count_append]
          have ho := IH.once x hxk (by rw [hlk1 x hxne]; exact hxw)
          rw [htsdp] at ho
          rw [ho]
          simp [hxne]
      · -- zero
        intro x hx
        rw [List.count_append, List.count_append]
        rcases hx with hx | hx
        · have hxne : x ≠ k := fun he => hx (he ▸ List.mem_cons_self k ks)
          have hz := IH.zero x (Or.inl fun he => hx (List.mem_cons_of_mem _ he))
          rw [htsdp] at hz
          rw [hz]
          simp [hxne]
        · by_cases hxk : x = k
          · subst hxk
            exact absurd hkw hx
          · have hz := IH.zero x (Or.inr (by rw [hlk1 x hxk]; exact hx))
            rw [htsdp] at hz
            rw [hz]
            simp [hxk]
      · -- mem
        intro x st hm
        rcases IH.mem x st hm with h1 | h1
        · rw [htc] at h1
          rcases mem_setClient_weak h1 with h2 | h2
          · exact Or.inl h2
          · exact Or.inr (congrArg Prod.snd h2)
        · exact Or.inr h1
    · next hkw0 =>
      have hkw : ¬ (lookupClient s.clients k = some ClientState.waitingDescribe) := by
        simpa using hkw0
      have IH := ih s hnd hws hp hksnd
      constructor
      · exact IH.pan
      · exact IH.conf
      · exact IH.name
      · exact IH.src
      · exact IH.sst
      · exact IH.sdp
      · exact IH.dta
      · exact IH.nodup
      · exact IH.wsok
      · intro x hxmem hxw
        rcases List.mem_cons.1 hxmem with hxk | hxk
        · subst hxk
          exact absurd hxw hkw
        · exact IH.removed x hxk hxw
      · exact IH.pstab
      · intro x hxmem hxw
        rcases List.mem_cons.1 hxmem with hxk | hxk
        · subst hxk
          exact absurd hxw hkw
        · exact IH.once x hxk hxw
      · intro x hx
        rcases hx with hx | hx
        · exact IH.zero x (Or.inl fun he => hx (List.mem_cons_of_mem _ he))
        · exact IH.zero x (Or.inr hx)
      · exact IH.mem

/-- Claim C7: when the armed describe timer fires, every client in
`WaitingDescribe` is moved to `PreRemove` and receives exactly one
describe callback with the timeout error carrying the path name; the
source state is reset to `NotReady` after the removals, so when the path
has an on-demand external source, the source is present and every client
was waiting or already removed, the subsequent schedule checks observe the
quiescent state and arm the source-close timer. -/
theorem claim_C7 (s : PathState) (harm : s.describeTimerArmed = true)
    (hnd : (s.clients.map Prod.fst).Nodup) (hws : WaitSrcOk s)
    (hp : s.panicked = false) :
    (∀ x, lookupClient s.clients x = some ClientState.waitingDescribe →
      lookupClient (step s Event.describeTimerFire).1.clients x =
        some ClientState.preRemove ∧
      (step s Event.describeTimerFire).2.count
        (Out.describeData x none "" (some (PathErr.publisherTimedOut s.name))) = 1) ∧
    (step s Event.describeTimerFire).1.sourceState = SourceState.notReady ∧
    (hasExternalSource s.conf = true → s.conf.sourceOnDemand = true →
      ¬ (s.source = none) →
      (∀ x st, (x, st) ∈ s.clients → st = ClientState.waitingDescribe ∨
        st = ClientState.preRemove) →
      (step s Event.describeTimerFire).1.sourceCloseTimerStarted = true) := by
  have hstep : step s Event.describeTimerFire =
      onDescribeTimer { s with describeTimerArmed := false } := by
    unfold step
    rw [if_neg (by simp [hp])]
    dsimp only
    rw [if_pos harm]
  have SPEC := dtLoop_spec (s.clients.map Prod.fst)
    { s with describeTimerArmed := false } hnd hws hp hnd
  have honDT : onDescribeTimer { s with describeTimerArmed := false } =
      (schedules { (dtLoop { s with describeTimerArmed := false }
          (s.clients.map Prod.fst)).1 with sourceState := SourceState.notReady },
       (dtLoop { s with describeTimerArmed := false }
          (s.clients.map Prod.fst)).2) := rfl
  rw [hstep, honDT]
  refine ⟨?_, ?_, ?_⟩
  · intro x hx
    have hxk : x ∈ s.clients.map Prod.fst :=
      List.mem_map.2 ⟨(x, ClientState.waitingDescribe), lookup_mem hx, rfl⟩
    constructor
    · rw [(schedules_fields _).2.2.1]
      exact SPEC.removed x hxk hx
    · exact SPEC.once x hxk hx
  · rw [(schedules_fields _).2.2.2.2.1]
  · intro hext hod hsrc hall
    have hhc : hasClients { (dtLoop { s with describeTimerArmed := false }
        (s.clients.map Prod.fst)).1 with sourceState := SourceState.notReady } = false := by
      rw [hasClients_false_iff]
      intro q hq
      by_contra hqne
      obtain ⟨x, st⟩ := q
      have hm2 : (x, st) ∈ (dtLoop { s with describeTimerArmed := false }
          (s.clients.map Prod.fst)).1.clients := hq
      rcases SPEC.mem x st hm2 with h1 | h1
      · rcases hall x st h1 with h2 | h2
        · subst h2
          have hlkw : lookupClient s.clients x = some ClientState.waitingDescribe :=
            mem_lookup hnd h1
          have hxk : x ∈ s.clients.map Prod.fst :=
            List.mem_map.2 ⟨(x, ClientState.waitingDescribe), h1, rfl⟩
          have h3 := SPEC.removed x hxk hlkw
          have h4 := mem_lookup SPEC.nodup hm2
          rw [h3] at h4
          simp at h4
        · exact hqne h2
      · exact hqne h1
    by_cases hflag : (dtLoop { s with describeTimerArmed := false }
        (s.clients.map Prod.fst)).1.sourceCloseTimerStarted = true
    · exact schedules_scmono _ hflag
    · refine schedules_arm _ ?_ ?_ ?_ ?_ hhc
      · rw [SPEC.conf]; exact hext
      · rw [SPEC.conf]; exact hod
      · rw [SPEC.src]; exact hsrc
      · intro he; cases he

/-- Witness for claim C7 at scenario 2 of the specification: an on-demand
external path with one waiting describer whose describe timer fires:
the waiting client is evicted with one timeout callback, the source state
is reset, and the source-close timer is armed. -/
theorem claim_C7_witness :
    lookupClient (step (runTrace ⟨SourceKind.rtsp, true, false, false, ""⟩ "p"
        [Event.clientDescribe 2]) Event.describeTimerFire).1.clients 2 =
      some ClientState.preRemove ∧
    (step (runTrace ⟨SourceKind.rtsp, true, false, false, ""⟩ "p"
        [Event.clientDescribe 2]) Event.describeTimerFire).2.count
      (Out.describeData 2 none "" (some (PathErr.publisherTimedOut "p"))) = 1 ∧
    (step (runTrace ⟨SourceKind.rtsp, true, false, false, ""⟩ "p"
        [Event.clientDescribe 2]) Event.describeTimerFire).1.sourceState =
      SourceState.notReady ∧
    (step (runTrace ⟨SourceKind.rtsp, true, false, false, ""⟩ "p"
        [Event.clientDescribe 2]) Event.describeTimerFire).1.sourceCloseTimerStarted =
      true := by
  have hws : WaitSrcOk (runTrace ⟨SourceKind.rtsp, true, false, false, ""⟩ "p"
      [Event.clientDescribe 2]) := by
    intro x hx he
    have hsrc : (runTrace ⟨SourceKind.rtsp, true, false, false, ""⟩ "p"
        [Event.clientDescribe 2]).source = some SourceVal.external := rfl
    rw [hsrc] at he
    simp at he
  have hall : ∀ x st, (x, st) ∈ (runTrace ⟨SourceKind.rtsp, true, false, false, ""⟩ "p"
      [Event.clientDescribe 2]).clients → st = ClientState.waitingDescribe ∨
      st = ClientState.preRemove := by
    intro x st hm
    have hcl : (runTrace ⟨SourceKind.rtsp, true, false, false, ""⟩ "p"
        [Event.clientDescribe 2]).clients = [(2, ClientState.waitingDescribe)] := rfl
    rw [hcl] at hm
    simp at hm
    exact Or.inl hm.2
  have h := claim_C7 (runTrace ⟨SourceKind.rtsp, true, false, false, ""⟩ "p"
    [Event.clientDescribe 2]) (by decide) (by decide) hws (by decide)
  exact ⟨(h.1 2 (by decide)).1, (h.1 2 (by decide)).2, h.2.1,
    h.2.2 (by decide) (by decide) (by decide) hall⟩

/-- Claim C8: when the `SourceSetReady` transition runs, the describe timer
is stopped if the source state was `WaitingDescribe`, the source state
becomes `Ready`, and every client that was in `WaitingDescribe` is moved
to `PreRemove` and receives exactly one `OnPathDescribeData` callback with
the stored sdp, empty redirect URL and nil error; no waiting client is
retained in the membership. -/
theorem claim_C8 (s : PathState)
    (hnd : (s.clients.map Prod.fst).Nodup) (hws : WaitSrcOk s)
    (hp : s.panicked = false) :
    (s.sourceState = SourceState.waitingDescribe →
      (onSourceSetReady s).1.describeTimerArmed = false) ∧
    (onSourceSetReady s).1.sourceState = SourceState.ready ∧
    (∀ x, lookupClient s.clients x = some ClientState.waitingDescribe →
      lookupClient (onSourceSetReady s).1.clients x = some ClientState.preRemove ∧
      (onSourceSetReady s).2.count (Out.describeData x s.sourceSdp "" none) = 1) ∧
    (∀ x, ¬ (lookupClient (onSourceSetReady s).1.clients x =
      some ClientState.waitingDescribe)) := by
  unfold onSourceSetReady
  by_cases hw : (s.sourceState == SourceState.waitingDescribe) = true
  · rw [if_pos hw]
    dsimp only
    have SPEC := ssrLoop_spec (s.clients.map Prod.fst)
      { s with describeTimerArmed := false, sourceState := SourceState.ready }
      hnd hws hp hnd
    refine ⟨?_, ?_, ?_, ?_⟩
    · intro _
      rw [(schedules_fields _).2.2.2.2.2.2.2.2.1]
      exact SPEC.dta
    · rw [(schedules_fields _).2.2.2.2.1]
      exact SPEC.sst
    · intro x hx
      have hxk : x ∈ s.clients.map Prod.fst :=
        List.mem_map.2 ⟨(x, ClientState.waitingDescribe), lookup_mem hx, rfl⟩
      exact ⟨by rw [(schedules_fields _).2.2.1]; exact SPEC.removed x hxk hx,
        SPEC.once x hxk hx⟩
    · intro x hx
      rw [(schedules_fields _).2.2.1] at hx
      have hm := lookup_mem hx
      rcases SPEC.mem x ClientState.waitingDescribe hm with h1 | h1
      · have hlkw : lookupClient s.clients x = some ClientState.waitingDescribe :=
          mem_lookup hnd h1
        have hxk : x ∈ s.clients.map Prod.fst :=
          List.mem_map.2 ⟨(x, ClientState.waitingDescribe), h1, rfl⟩
        have h3 := SPEC.removed x hxk hlkw
        rw [h3] at hx
        simp at hx
      · simp at h1
  · rw [if_neg hw]
    dsimp only
    have SPEC := ssrLoop_spec (s.clients.map Prod.fst)
      { s with sourceState := SourceState.ready } hnd hws hp hnd
    refine ⟨?_, ?_, ?_, ?_⟩
    · intro hww
      exact absurd (by simp [hww]) hw
    · rw [(schedules_fields _).2.2.2.2.1]
      exact SPEC.sst
    · intro x hx
      have hxk : x ∈ s.clients.map Prod.fst :=
        List.mem_map.2 ⟨(x, ClientState.waitingDescribe), lookup_mem hx, rfl⟩
      exact ⟨by rw [(schedules_fields _).2.2.1]; exact SPEC.removed x hxk hx,
        SPEC.once x hxk hx⟩
    · intro x hx
      rw [(schedules_fields _).2.2.1] at hx
      have hm := lookup_mem hx
      rcases SPEC.mem x ClientState.waitingDescribe hm with h1 | h1
      · have hlkw : lookupClient s.clients x = some ClientState.waitingDescribe :=
          mem_lookup hnd h1
        have hxk : x ∈ s.clients.map Prod.fst :=
          List.mem_map.2 ⟨(x, ClientState.waitingDescribe), h1, rfl⟩
        have h3 := SPEC.removed x hxk hlkw
        rw [h3] at hx
        simp at hx
      · simp at h1

/-- Witness for claim C8 on an on-demand external path with one waiting
describer, after the source stored the sdp of one track: the waiting
client is flushed with exactly one success callback carrying the stored
sdp, the describe timer is disarmed and the source state becomes Ready. -/
theorem claim_C8_witness :
    lookupClient (onSourceSetReady { runTrace ⟨SourceKind.rtsp, true, false, false, ""⟩
        "p" [Event.clientDescribe 2] with
      sourceSdp := some (tracksWrite [5]), sourceTrackCount := 1,
      extReady := true }).1.clients 2 = some ClientState.preRemove ∧
    (onSourceSetReady { runTrace ⟨SourceKind.rtsp, true, false, false, ""⟩
        "p" [Event.clientDescribe 2] with
      sourceSdp := some (tracksWrite [5]), sourceTrackCount := 1,
      extReady := true }).2.count
      (Out.describeData 2 (some (tracksWrite [5])) "" none) = 1 ∧
    (onSourceSetReady { runTrace ⟨SourceKind.rtsp, true, false, false, ""⟩
        "p" [Event.clientDescribe 2] with
      sourceSdp := some (tracksWrite [5]), sourceTrackCount := 1,
      extReady := true }).1.sourceState = SourceState.ready ∧
    (onSourceSetReady { runTrace ⟨SourceKind.rtsp, true, false, false, ""⟩
        "p" [Event.clientDescribe 2] with
      sourceSdp := some (tracksWrite [5]), sourceTrackCount := 1,
      extReady := true }).1.describeTimerArmed = false := by
  have hws : WaitSrcOk { runTrace ⟨SourceKind.rtsp, true, false, false, ""⟩
      "p" [Event.clientDescribe 2] with
    sourceSdp := some (tracksWrite [5]), sourceTrackCount := 1, extReady := true } := by
    intro x hx he
    have hsrc : ({ runTrace ⟨SourceKind.rtsp, true, false, false, ""⟩
        "p" [Event.clientDescribe 2] with
      sourceSdp := some (tracksWrite [5]), sourceTrackCount := 1,
      extReady := true } : PathState).source = some SourceVal.external := rfl
    rw [hsrc] at he
    simp at he
  have h := claim_C8 { runTrace ⟨SourceKind.rtsp, true, false, false, ""⟩
      "p" [Event.clientDescribe 2] with
    sourceSdp := some (tracksWrite [5]), sourceTrackCount := 1, extReady := true }
    (by decide) hws (by decide)
  exact ⟨(h.2.2.1 2 (by decide)).1, (h.2.2.1 2 (by decide)).2, h.2.1,
    h.1 (by decide)⟩

end Path
